import Mathlib

/-!
Verification development for the survey-analysis-core repository.

The Python sources under `src/survey_analysis/core/` (`crosstab.py`, `stats.py`)
are shallowly embedded below.  A pandas `DataFrame` becomes `DFrame` (a list of
rows over named columns), cell values become `Cell` (missing / numeric / text),
pandas `NaN` is `Cell.missing`, Python exceptions become `Except` error values,
and floating point arithmetic is carried out exactly over `ℚ`.

External library calls are embedded by their documented algorithms where a
claim depends on their output (`scipy.stats.chi2_contingency`'s statistic with
Yates continuity correction, `statsmodels`' `multipletests` for the
`fdr_bh` branch); transcendental scalars that no claim touches (chi-square
p-values, the Šidák-corrected alpha, the final square root of Cramér's V —
represented here by its rational radicand) are not modelled numerically.
-/

namespace SurveyAnalysis

/-- Value of one cell of the tabular dataset: pandas `NaN` (`missing`),
a numeric value, or a text value. -/
inductive Cell where
  | missing : Cell
  | num : ℚ → Cell
  | text : String → Cell
deriving DecidableEq, Repr

/-- Embedding of the loaded dataset (`pd.DataFrame`): named columns, one list
of cells per respondent row, plus the ordered-categorical declarations that
the data provider may have attached to columns (pandas ordered `Categorical`
dtype: a column name together with its ordered category labels). -/
structure DFrame where
  cols : List String
  rows : List (List Cell)
  catOrders : List (String × List String)
deriving DecidableEq, Repr

/-- Column membership test (`col in df.columns`). -/
def DFrame.hasCol (df : DFrame) (c : String) : Bool := df.cols.contains c

/-- Extract a column as the list of its cells (`df[col]`). -/
def DFrame.getCol (df : DFrame) (c : String) : List Cell :=
  df.rows.map fun r => r.getD (df.cols.indexOf c) Cell.missing

/-- Ordered-categorical declaration of a column, when present
(`df[col].cat.ordered` and `df[col].cat.categories`). -/
def DFrame.orderedCats (df : DFrame) (c : String) : Option (List String) :=
  df.catOrders.lookup c

/-- Embedding of `survey_analysis.base.config.SurveyConfig`: the fields the
core reads (question-id → column-name mapping, significance level, tiered
crosstab pair lists). -/
structure SurveyConfig where
  questions : List (String × String)
  alpha : ℚ
  crosstab_tiers : List (String × List (String × String))
deriving DecidableEq, Repr

/-- `SurveyConfig.get_column_name`: resolve a question id to a column name,
falling back to the id itself when unmapped (`self.questions.get(id, id)`). -/
def SurveyConfig.get_column_name (cfg : SurveyConfig) (question_id : String) : String :=
  (cfg.questions.lookup question_id).getD question_id

/-- `config.crosstab_tiers.get(tier, [])`. -/
def SurveyConfig.tierPairs (cfg : SurveyConfig) (tier : String) : List (String × String) :=
  (cfg.crosstab_tiers.lookup tier).getD []

/-- Column-name resolution used at the top of every operation:
`config.get_column_name(var) if config else var`. -/
def resolveVar (config : Option SurveyConfig) (v : String) : String :=
  match config with
  | some cfg => cfg.get_column_name v
  | none => v

/-- Embedding of a crosstab / contingency table (`pd.DataFrame` produced by
`pd.crosstab`): row labels, column labels, and the cell matrix in row-major
order.  Counts are integers; normalized tables carry rationals. -/
structure CTable where
  rowLabels : List Cell
  colLabels : List Cell
  counts : List (List ℚ)
deriving DecidableEq, Repr

/-- Paired observations of two columns with rows missing either value dropped,
exactly the pairs that `pd.crosstab(df[a], df[b])` aggregates. -/
def pairedObs (xs ys : List Cell) : List (Cell × Cell) :=
  (xs.zip ys).filter fun p => decide (p.1 ≠ Cell.missing ∧ p.2 ≠ Cell.missing)

/-- Number of observations equal to the pair `(a, b)` — one crosstab cell. -/
def countPair (obs : List (Cell × Cell)) (a b : Cell) : ℕ :=
  (obs.filter fun p => decide (p.1 = a ∧ p.2 = b)).length

/-- Embedding of margin-free `pd.crosstab(df[a], df[b])`: the distinct
observed values of each variable become the labels and each cell counts the
matching pairs.  `pd.crosstab` presents the labels in ascending order while
this embedding keeps them in first-occurrence order; every property claimed
of these tables is invariant under the ordering of the category labels, which
only permutes rows and columns together with their labels. -/
def crosstabCore (xs ys : List Cell) : CTable :=
  let obs := pairedObs xs ys
  let rls := (obs.map Prod.fst).dedup
  let cls := (obs.map Prod.snd).dedup
  ⟨rls, cls, rls.map fun a => cls.map fun b => ((countPair obs a b : ℕ) : ℚ)⟩

/-- Reserved margin label (`margins_name='合計'`). -/
def totalLabel : Cell := Cell.text "合計"

/-- Column sums of a cell matrix of width `w`. -/
def colSumsOf (m : List (List ℚ)) (w : ℕ) : List ℚ :=
  (List.range w).map fun j => (m.map fun r => r.getD j 0).sum

/-- Margins of `pd.crosstab(..., margins=True, margins_name='合計')`: a
trailing `合計` column of row sums and a trailing `合計` row of column sums
with the grand total in the corner. -/
def addMargins (t : CTable) : CTable :=
  let w := t.colLabels.length
  let bottom := colSumsOf t.counts w ++ [(t.counts.map List.sum).sum]
  ⟨t.rowLabels ++ [totalLabel], t.colLabels ++ [totalLabel],
   (t.counts.map fun r => r ++ [r.sum]) ++ [bottom]⟩

/-- The `normalize` argument of `create_crosstab`. -/
inductive NormalizeKind where
  | index : NormalizeKind
  | columns : NormalizeKind
  | all : NormalizeKind
deriving DecidableEq, Repr

/-- Row normalization branch of `create_crosstab`
(`ct.div(ct.sum(axis=1), axis=0) * 100`): every cell of a row is divided by
the sum of that whole row — including a margin cell when one is present. -/
def normalizeRows (m : List (List ℚ)) : List (List ℚ) :=
  m.map fun r => r.map fun x => x / r.sum * 100

/-- Column normalization branch of `create_crosstab`
(`ct.div(ct.sum(axis=0), axis=1) * 100`), taken both for `'columns'` and for
`'all'` (the source's axis selection sends `'all'` down this branch). -/
def normalizeCols (m : List (List ℚ)) (w : ℕ) : List (List ℚ) :=
  let cs := colSumsOf m w
  m.map fun r => (List.range w).map fun j => r.getD j 0 / cs.getD j 0 * 100

/-- Errors raised by the crosstab module (`ValueError`s in the source; the
spec's taxonomy calls the missing-column case `ColumnNotFoundError`). -/
inductive CtError where
  | columnNotFound : String → CtError
  | columnsNotFound : CtError
deriving DecidableEq, Repr

/-- Warning message attached to a failed tier pair
(`f"{key} のクロス集計に失敗: {e}"`). -/
def ctErrorMessage : CtError → String
  | CtError.columnNotFound name => "カラムが見つかりません: " ++ name
  | CtError.columnsNotFound => "カラムが見つかりません"

/-- Embedding of `create_crosstab`: resolve the two variables, fail fast on a
missing column, cross-tabulate, then optionally add margins and normalize —
in that order, exactly as the source does. -/
def create_crosstab (df : DFrame) (row_var col_var : String)
    (config : Option SurveyConfig) (normalize : Option NormalizeKind)
    (margins : Bool) : Except CtError CTable :=
  let row_col := resolveVar config row_var
  let col_col := resolveVar config col_var
  if df.hasCol row_col then
    if df.hasCol col_col then
      let ct0 := crosstabCore (df.getCol row_col) (df.getCol col_col)
      let ct1 := if margins then addMargins ct0 else ct0
      Except.ok <|
        match normalize with
        | none => ct1
        | some NormalizeKind.index => ⟨ct1.rowLabels, ct1.colLabels, normalizeRows ct1.counts⟩
        | some _ => ⟨ct1.rowLabels, ct1.colLabels, normalizeCols ct1.counts ct1.colLabels.length⟩
    else Except.error (CtError.columnNotFound col_col)
  else Except.error (CtError.columnNotFound row_col)

/-- Embedding of `create_crosstab_with_totals`. -/
def create_crosstab_with_totals (df : DFrame) (row_var col_var : String)
    (config : Option SurveyConfig) : Except CtError CTable :=
  create_crosstab df row_var col_var config none true

/-- Test for a text cell (`isinstance(x, str)`). -/
def cellIsText : Cell → Bool
  | Cell.text _ => true
  | _ => false

/-- Text payload of a cell (only applied to text cells below). -/
def cellTextVal : Cell → String
  | Cell.text s => s
  | _ => ""

/-- Working rows of `create_multiselect_crosstab` after
`dropna(subset=[col])` and the `isinstance(x, str)` filter: pairs whose
column-variable cell is a text value (missing and non-text dropped). -/
def multiselectWork (xs ys : List Cell) : List (Cell × Cell) :=
  (xs.zip ys).filter fun p => cellIsText p.2

/-- Test whether the second character list starts with the first one. -/
def leadsWith : List Char → List Char → Bool
  | [], _ => true
  | _ :: _, [] => false
  | d :: ds, c :: cs => d == c && leadsWith ds cs

/-- Left-to-right, non-overlapping split on a delimiter character sequence,
the semantics of Python's `str.split(delim)`.  The fuel argument (always
instantiated with the input length, which bounds the recursion) makes the
recursion structural. -/
def splitOnListAux (delim : List Char) : ℕ → List Char → List (List Char)
  | 0, l => [l]
  | _ + 1, [] => [[]]
  | fuel + 1, c :: rest =>
    if leadsWith delim (c :: rest) then
      [] :: splitOnListAux delim fuel (List.drop delim.length (c :: rest))
    else
      match splitOnListAux delim fuel rest with
      | [] => [[c]]
      | g :: gs => (c :: g) :: gs

/-- `value.split(delimiter)` over the character lists of the strings. -/
def splitOnList (delim l : List Char) : List (List Char) :=
  if delim = [] then [l] else splitOnListAux delim l.length l

/-- Python's `str.strip()`: drop whitespace from both ends.  (pandas also
strips some further Unicode space characters; no claim involves them.) -/
def trimChars (l : List Char) : List Char :=
  ((l.dropWhile Char.isWhitespace).reverse.dropWhile Char.isWhitespace).reverse

/-- Exploded multi-select observations: each kept row's column value is split
on the delimiter, each piece stripped, empty pieces discarded
(`str.split` / `explode` / `str.strip` / `!= ''`). -/
def multiselectExpanded (xs ys : List Cell) (delimiter : String) : List (Cell × String) :=
  ((multiselectWork xs ys).flatMap fun p =>
    (splitOnList delimiter.data (cellTextVal p.2).data).map
      fun t => (p.1, String.mk (trimChars t))).filter
    fun p => decide (p.2 ≠ "")

/-- The explicitly empty table (`pd.DataFrame()`). -/
def emptyCTable : CTable := ⟨[], [], []⟩

/-- Embedding of `create_multiselect_crosstab`.  Note `String.trim` strips the
ASCII whitespace that the claims exercise; pandas `str.strip` also covers
further Unicode space characters, which no claim involves. -/
def create_multiselect_crosstab (df : DFrame) (row_var col_var : String)
    (config : Option SurveyConfig) (delimiter : String) : Except CtError CTable :=
  let row_col := resolveVar config row_var
  let col_col := resolveVar config col_var
  if df.hasCol row_col && df.hasCol col_col then
    let work := multiselectWork (df.getCol row_col) (df.getCol col_col)
    if work.isEmpty then Except.ok emptyCTable
    else
      let expanded := multiselectExpanded (df.getCol row_col) (df.getCol col_col) delimiter
      if expanded.isEmpty then Except.ok emptyCTable
      else
        Except.ok (crosstabCore (expanded.map Prod.fst) (expanded.map fun p => Cell.text p.2))
  else Except.error CtError.columnsNotFound

/-- Embedding of `analyze_crosstabs_by_tier`: every tier pair is attempted;
a success is stored under its `row_x_col` key, a failure is converted into a
recorded warning message and the loop continues.  The function is total — the
per-pair `try/except` of the source means no error escapes. -/
def analyze_crosstabs_by_tier (df : DFrame) (config : SurveyConfig) (tier : String) :
    List (String × CTable) × List String :=
  (config.tierPairs tier).foldl
    (fun acc p =>
      let key := p.1 ++ "_x_" ++ p.2
      match create_crosstab_with_totals df p.1 p.2 (some config) with
      | Except.ok ct => (acc.1 ++ [(key, ct)], acc.2)
      | Except.error e => (acc.1, acc.2 ++ [key ++ " のクロス集計に失敗: " ++ ctErrorMessage e]))
    ([], [])

/-- Drop the cells sitting under a `合計` column label from one row
(`drop('合計', axis=1)` applied cellwise). -/
def dropTotalCols (cls : List Cell) (r : List ℚ) : List ℚ :=
  ((cls.zip r).filter fun p => decide (p.1 ≠ totalLabel)).map Prod.snd

/-- The `ct_clean` block of `get_crosstab_summary` /
`calculate_row_percentages`: remove any `合計` margin row and column. -/
def stripMargins (t : CTable) : CTable :=
  let rowsKept := (t.rowLabels.zip t.counts).filter fun p => decide (p.1 ≠ totalLabel)
  ⟨rowsKept.map Prod.fst,
   t.colLabels.filter fun c => decide (c ≠ totalLabel),
   rowsKept.map fun p => dropTotalCols t.colLabels p.2⟩

/-- Tail-recursive scan behind `listArgmax`; keeps the current best index and
value, replacing them only on a strictly greater value, so the first maximum
in iteration order wins — `np.argmax` semantics. -/
def argmaxGo : List ℚ → ℕ → ℚ → ℕ → ℕ
  | [], best, _, _ => best
  | x :: xs, best, bestVal, cur =>
      if bestVal < x then argmaxGo xs cur x (cur + 1)
      else argmaxGo xs best bestVal (cur + 1)

/-- Index of the first maximal element (`np.argmax` over the flattened,
row-major cell values); `0` on the empty list. -/
def listArgmax : List ℚ → ℕ
  | [] => 0
  | x :: xs => argmaxGo xs 0 x 1

/-- Summary record returned by `get_crosstab_summary`. -/
structure CrosstabSummary where
  row_var : String
  col_var : String
  n_rows : ℕ
  n_cols : ℕ
  total_n : ℚ
  maxRow : Cell
  maxCol : Cell
  maxCount : ℚ
  maxPercentage : ℚ
deriving DecidableEq, Repr

/-- Embedding of `get_crosstab_summary`: strip margins, then locate the
highest-count cell via the row-major flattened argmax and `divmod` by the
column count, exactly as `ct_clean.values.argmax()` does. -/
def get_crosstab_summary (ct : CTable) (row_var col_var : String) : CrosstabSummary :=
  let c := stripMargins ct
  let total_n := (c.counts.map List.sum).sum
  let flat := c.counts.flatten
  let maxIdx := listArgmax flat
  let w := c.colLabels.length
  let maxCount := flat.getD maxIdx 0
  ⟨row_var, col_var, c.rowLabels.length, c.colLabels.length, total_n,
   c.rowLabels.getD (maxIdx / w) Cell.missing, c.colLabels.getD (maxIdx % w) Cell.missing,
   maxCount, if 0 < total_n then maxCount / total_n * 100 else 0⟩

/-- First row of a table carrying the given label (`ct.loc[label]`; labels of
the tables the source builds are unique). -/
def rowOfLabel (t : CTable) (lbl : Cell) : List ℚ :=
  ((((t.rowLabels.zip t.counts).filter fun p => decide (p.1 = lbl)).map Prod.snd)).headD []

/-- Python truthiness of an `Optional[List[str]]` argument: `None` and the
empty list are both falsy. -/
def truthyList : Option (List String) → Bool
  | none => false
  | some [] => false
  | some (_ :: _) => true

/-- Embedding of `filter_crosstab_by_category`: keep only the requested row
and column categories that exist, in the requested order, skipping each
filter when its argument is falsy (`if row_categories:`). -/
def filter_crosstab_by_category (ct : CTable)
    (row_categories col_categories : Option (List String)) : CTable :=
  let afterRows :=
    if truthyList row_categories then
      let valid := (row_categories.getD []).filter fun r => ct.rowLabels.contains (Cell.text r)
      ⟨valid.map Cell.text, ct.colLabels, valid.map fun r => rowOfLabel ct (Cell.text r)⟩
    else ct
  if truthyList col_categories then
    let valid :=
      (col_categories.getD []).filter fun c => afterRows.colLabels.contains (Cell.text c)
    ⟨afterRows.rowLabels, valid.map Cell.text,
     afterRows.counts.map fun row =>
       valid.map fun c => row.getD (afterRows.colLabels.indexOf (Cell.text c)) 0⟩
  else afterRows

/-! ### Statistics module (`stats.py`) -/

/-- Cell of a count matrix viewed as a total function (row-major lists, out of
range reads as 0; the matrices built above are rectangular). -/
def matEntry (m : List (List ℚ)) (i j : ℕ) : ℚ := (m.getD i []).getD j 0

/-- Row marginal of an `r × c` table given as a function. -/
def gRow (g : ℕ → ℕ → ℚ) (c i : ℕ) : ℚ := ∑ j ∈ Finset.range c, g i j

/-- Column marginal. -/
def gCol (g : ℕ → ℕ → ℚ) (r j : ℕ) : ℚ := ∑ i ∈ Finset.range r, g i j

/-- Grand total. -/
def gTot (g : ℕ → ℕ → ℚ) (r c : ℕ) : ℚ := ∑ i ∈ Finset.range r, gRow g c i

/-- Expected count under independence (`outer(rowsums, colsums) / n`). -/
def gExp (g : ℕ → ℕ → ℚ) (r c i j : ℕ) : ℚ := gRow g c i * gCol g r j / gTot g r c

/-- Pearson chi-square statistic (`scipy.stats.chi2_contingency` without
continuity correction). -/
def gPearson (g : ℕ → ℕ → ℚ) (r c : ℕ) : ℚ :=
  ∑ i ∈ Finset.range r, ∑ j ∈ Finset.range c,
    (g i j - gExp g r c i j) ^ 2 / gExp g r c i j

/-- One cell's contribution under Yates continuity correction: scipy moves the
observed count half a unit towards the expected one (`O + 0.5 * sign(E - O)`)
before squaring, which leaves an exact zero term when `O = E`. -/
def yatesTerm (o e : ℚ) : ℚ := if o = e then 0 else (|o - e| - 1 / 2) ^ 2 / e

/-- Chi-square statistic with Yates continuity correction, applied by scipy
when `dof == 1`. -/
def gYates (g : ℕ → ℕ → ℚ) (r c : ℕ) : ℚ :=
  ∑ i ∈ Finset.range r, ∑ j ∈ Finset.range c, yatesTerm (g i j) (gExp g r c i j)

/-- Statistic, degrees of freedom and expected table of
`scipy.stats.chi2_contingency(m, correction)`.  The p-value — the chi-square
distribution's survival function at the statistic, a transcendental function
no claim touches — is not modelled.  scipy's guard against a zero expected
frequency cannot fire on the tables built here, whose marginals are positive. -/
structure Chi2ContResult where
  chi2 : ℚ
  dof : ℕ
  expected : List (List ℚ)
deriving DecidableEq, Repr

/-- Embedding of `chi2_contingency` on an `r × c` count matrix. -/
def chi2_contingency (m : List (List ℚ)) (r c : ℕ) (correction : Bool) : Chi2ContResult :=
  let dof := (r - 1) * (c - 1)
  let chi2 :=
    if correction = true ∧ dof = 1 then gYates (matEntry m) r c
    else gPearson (matEntry m) r c
  ⟨chi2, dof, (List.range r).map fun i => (List.range c).map fun j => gExp (matEntry m) r c i j⟩

/-- Errors raised by `stats.py` (`ValueError`s in the source, classified by
the spec's taxonomy: missing column, degenerate contingency table
(`InsufficientDataError`), too few paired observations
(`InsufficientDataError`), unsupported correlation method
(`InvalidArgumentError`, carrying the allowed set the message names). -/
inductive StatsError where
  | columnNotFound : String → StatsError
  | tableTooSmall : String → String → StatsError
  | insufficientData : ℕ → StatsError
  | invalidMethod : String → List String → StatsError
deriving DecidableEq, Repr

/-- Result record of `chi_square_test`.  The source stores
`cramers_v = sqrt(chi2 / (n * min_dim))`; the square root of a rational is
irrational in general, so the record carries the exact radicand
`cramersVSq = chi2 / (n * min_dim)` and the theorems speak about
`Real.sqrt cramersVSq`. -/
structure ChiSquareResult where
  var1 : String
  var2 : String
  chi2 : ℚ
  dof : ℕ
  cramersVSq : ℚ
  observed : List (List ℚ)
  expected : List (List ℚ)
deriving DecidableEq, Repr

/-- Embedding of `chi_square_test`: resolve columns, fail fast when absent,
build the margin-free contingency table, reject tables with fewer than 2
categories on either dimension, then run `chi2_contingency` (with scipy's
default continuity correction) and attach Cramér's V. -/
def chi_square_test (df : DFrame) (var1 var2 : String) (config : Option SurveyConfig) :
    Except StatsError ChiSquareResult :=
  let col1 := resolveVar config var1
  let col2 := resolveVar config var2
  if df.hasCol col1 then
    if df.hasCol col2 then
      let t := crosstabCore (df.getCol col1) (df.getCol col2)
      let r := t.rowLabels.length
      let c := t.colLabels.length
      if r < 2 ∨ c < 2 then Except.error (StatsError.tableTooSmall var1 var2)
      else
        let res := chi2_contingency t.counts r c true
        let n := (t.counts.map List.sum).sum
        let min_dim : ℕ := min (r - 1) (c - 1)
        let v2 := if 0 < min_dim then res.chi2 / (n * (min_dim : ℚ)) else 0
        Except.ok ⟨var1, var2, res.chi2, res.dof, v2, t.counts, res.expected⟩
    else Except.error (StatsError.columnNotFound col2)
  else Except.error (StatsError.columnNotFound col1)

/-- The correlation methods the source dispatches on; an unrecognized method
raises a `ValueError` naming exactly this set. -/
def allowedCorrMethods : List String := ["spearman", "pearson", "kendall"]

/-- Order-rank coding of an ordered-categorical value (`x.cat.codes`): the
position of the label in the declared category order.  pandas stores only
declared labels (anything else is `NaN` and was dropped before coding). -/
def catCode (cats : List String) : Cell → Cell
  | Cell.text s => Cell.num ((cats.indexOf s : ℕ) : ℚ)
  | v => v

/-- The `if hasattr(x, 'cat') and x.cat.ordered: x = x.cat.codes` step of
`correlation_test`. -/
def codesIfOrdered (df : DFrame) (c : String) (vals : List Cell) : List Cell :=
  match df.orderedCats c with
  | some cats => vals.map (catCode cats)
  | none => vals

/-- Result record of `correlation_test`.  `xs`/`ys` are the two argument
vectors handed to the scipy correlation routine after missing-value dropping
and ordered-categorical coding; the routine's float outputs (coefficient and
p-value) are external library computations no claim touches. -/
structure CorrResult where
  method : String
  var1 : String
  var2 : String
  xs : List Cell
  ys : List Cell
  n : ℕ
deriving DecidableEq, Repr

/-- Embedding of `correlation_test`: resolve columns, drop rows missing in
either variable, fail below 3 paired observations, code ordered categoricals,
then dispatch on the method name, rejecting anything outside the allowed set. -/
def correlation_test (df : DFrame) (var1 var2 : String) (method : String)
    (config : Option SurveyConfig) : Except StatsError CorrResult :=
  let col1 := resolveVar config var1
  let col2 := resolveVar config var2
  if df.hasCol col1 then
    if df.hasCol col2 then
      let valid := pairedObs (df.getCol col1) (df.getCol col2)
      if valid.length < 3 then Except.error (StatsError.insufficientData valid.length)
      else
        let x := codesIfOrdered df col1 (valid.map Prod.fst)
        let y := codesIfOrdered df col2 (valid.map Prod.snd)
        if allowedCorrMethods.contains method then
          Except.ok ⟨method, var1, var2, x, y, valid.length⟩
        else Except.error (StatsError.invalidMethod method allowedCorrMethods)
    else Except.error (StatsError.columnNotFound col2)
  else Except.error (StatsError.columnNotFound col1)

/-- Element access used by the argsort comparison (`pvals[i]`). -/
def pAt (p : List ℚ) (i : ℕ) : ℚ := p.getD i 0

/-- `np.argsort(pvals)`: the index list that sorts the p-values ascending.
numpy's default quicksort is not stable, but every output of the procedure
below is invariant under the ordering of tied p-values, so a stable sort is a
faithful model. -/
def argsortIdx (p : List ℚ) : List ℕ :=
  (List.range p.length).mergeSort fun i j => decide (pAt p i ≤ pAt p j)

/-- The sorted p-values `np.take(pvals, sortind)`. -/
def sortedPVals (p : List ℚ) : List ℚ := (argsortIdx p).map (pAt p)

/-- `_ecdf`: the factors `(i+1)/n` for `i = 0, …, n-1`. -/
def ecdfFactors (n : ℕ) : List ℚ := (List.range n).map fun i => ((i + 1 : ℕ) : ℚ) / (n : ℚ)

/-- Raw step-up comparisons `pvals_sorted <= ecdffactor * alpha`. -/
def rejectSortedRaw (p : List ℚ) (alpha : ℚ) : List Bool :=
  (sortedPVals p).zipWith (fun q f => decide (q ≤ f * alpha)) (ecdfFactors p.length)

/-- Index of the last `true`, if any (`max(np.nonzero(reject)[0])`). -/
def lastTrueIdx (l : List Bool) : Option ℕ :=
  (List.range l.length).foldl (fun acc k => if l.getD k false then some k else acc) none

/-- Sorted reject flags after the `reject[:rejectmax] = True` fill: every
index up to the last raw rejection is rejected. -/
def rejectSorted (p : List ℚ) (alpha : ℚ) : List Bool :=
  let raw := rejectSortedRaw p alpha
  match lastTrueIdx raw with
  | none => raw
  | some m => (List.range raw.length).map fun k => decide (k ≤ m)

/-- `pvals_corrected_raw = pvals_sorted / ecdffactor`. -/
def correctedRawSorted (p : List ℚ) : List ℚ :=
  (sortedPVals p).zipWith (fun q f => q / f) (ecdfFactors p.length)

/-- Suffix minima: `np.minimum.accumulate(xs[::-1])[::-1]`. -/
def suffixMins : List ℚ → List ℚ
  | [] => []
  | x :: xs =>
    match suffixMins xs with
    | [] => [x]
    | y :: ys => min x y :: y :: ys

/-- The clip `pvals_corrected[pvals_corrected > 1] = 1`. -/
def clipOne (l : List ℚ) : List ℚ := l.map fun q => if 1 < q then 1 else q

/-- Benjamini–Hochberg corrected p-values in sorted position. -/
def correctedSorted (p : List ℚ) : List ℚ := clipOne (suffixMins (correctedRawSorted p))

/-- Undo the sort: `out[sortind] = vals`, so position `i` of the output holds
the value computed for `i`'s sorted copy. -/
def scatterBySortind {α : Type} (si : List ℕ) (vals : List α) (dflt : α) : List α :=
  (List.range si.length).map fun i => vals.getD (si.indexOf i) dflt

/-- Return value of `multipletests(..., method='fdr_bh')` as consumed by this
repository: per-input reject flags and corrected p-values plus the Bonferroni
corrected alpha.  The Šidák alpha `1 - (1-alpha)^(1/n)` is an irrational
scalar the repository never reads and is not modelled. -/
structure FdrResult where
  reject : List Bool
  pvals_corrected : List ℚ
  alphacBonf : ℚ
deriving DecidableEq, Repr

/-- Embedding of the `fdr_bh` branch of `statsmodels`' `multipletests`:
argsort, step-up rejections, raw corrections `p * n / (rank+1)`, reverse
cumulative minima, clip at 1, then scatter both arrays back to input order. -/
def multipletests_fdr_bh (p : List ℚ) (alpha : ℚ) : FdrResult :=
  let si := argsortIdx p
  ⟨scatterBySortind si (rejectSorted p alpha) false,
   scatterBySortind si (correctedSorted p) 0,
   alpha / (p.length : ℚ)⟩

/-- Embedding of `apply_fdr_correction`, a direct pass-through to
`multipletests` with the default method `'fdr_bh'` (the only method this
repository uses). -/
def apply_fdr_correction (p_values : List ℚ) (alpha : ℚ) : FdrResult :=
  multipletests_fdr_bh p_values alpha

/-- Embedding of the collection loop of `run_all_chi_square_tests`.  The
source loop body calls `chi_square_test` with no `try/except`, so the first
failing pair propagates its exception and aborts the batch — `mapM` in the
`Except` monad is the faithful embedding.  The post-loop FDR block (source
lines 441–453, modelled by `apply_fdr_correction`) only runs when every pair
succeeded, and reads the rows' p-values, which are unmodelled transcendental
scalars; its masking by `notna` is vacuous because a returned row always has
a p-value. -/
def run_all_chi_square_tests (df : DFrame) (pairs : List (String × String))
    (config : SurveyConfig) : Except StatsError (List ChiSquareResult) :=
  pairs.mapM fun p => chi_square_test df p.1 p.2 (some config)

/-! ### Supporting lemmas: counting observations by category -/

lemma sum_length_filter_key {γ α : Type} [DecidableEq α] (l : List γ) (key : γ → α)
    (K : Finset α) (h : ∀ x ∈ l, key x ∈ K) :
    ∑ a ∈ K, (l.filter fun x => decide (key x = a)).length = l.length := by
  induction l with
  | nil => simp
  | cons x xs ih =>
    have hx : key x ∈ K := h x (List.mem_cons_self x xs)
    have hxs : ∀ y ∈ xs, key y ∈ K := fun y hy => h y (List.mem_cons_of_mem x hy)
    have hsplit : ∀ a : α, ((x :: xs).filter fun y => decide (key y = a)).length
        = (if key x = a then 1 else 0) + (xs.filter fun y => decide (key y = a)).length := by
      intro a
      by_cases hk : key x = a
      · simp [List.filter_cons, hk]
        omega
      · simp [List.filter_cons, hk]
    rw [Finset.sum_congr rfl fun a _ => hsplit a, Finset.sum_add_distrib, ih hxs,
      Finset.sum_ite_eq K (key x) fun _ => 1]
    simp only [hx, if_true, List.length_cons]
    omega

lemma filter_pair_split {α β : Type} [DecidableEq α] [DecidableEq β]
    (obs : List (α × β)) (a : α) (b : β) :
    (obs.filter fun p => decide (p.1 = a ∧ p.2 = b)).length
      = ((obs.filter fun p => decide (p.1 = a)).filter fun p => decide (p.2 = b)).length := by
  rw [List.filter_filter]
  congr 1
  apply List.filter_congr
  intro p _
  rw [Bool.decide_and, Bool.and_comm]

lemma filter_pair_split_snd {α β : Type} [DecidableEq α] [DecidableEq β]
    (obs : List (α × β)) (a : α) (b : β) :
    (obs.filter fun p => decide (p.1 = a ∧ p.2 = b)).length
      = ((obs.filter fun p => decide (p.2 = b)).filter fun p => decide (p.1 = a)).length := by
  rw [List.filter_filter]
  congr 1
  apply List.filter_congr
  intro p _
  rw [Bool.decide_and]

lemma sum_count_pairs {α β : Type} [DecidableEq α] [DecidableEq β]
    (obs : List (α × β)) (T : Finset β) (h : ∀ p ∈ obs, p.2 ∈ T) (a : α) :
    ∑ b ∈ T, (obs.filter fun p => decide (p.1 = a ∧ p.2 = b)).length
      = (obs.filter fun p => decide (p.1 = a)).length := by
  have hsub : ∀ q ∈ obs.filter fun p => decide (p.1 = a), q.2 ∈ T := fun q hq =>
    h q (List.mem_of_mem_filter hq)
  calc ∑ b ∈ T, (obs.filter fun p => decide (p.1 = a ∧ p.2 = b)).length
      = ∑ b ∈ T, ((obs.filter fun p => decide (p.1 = a)).filter
          fun p => decide (p.2 = b)).length :=
        Finset.sum_congr rfl fun b _ => filter_pair_split obs a b
    _ = _ := sum_length_filter_key _ Prod.snd T hsub

lemma sum_count_pairs_snd {α β : Type} [DecidableEq α] [DecidableEq β]
    (obs : List (α × β)) (S : Finset α) (h : ∀ p ∈ obs, p.1 ∈ S) (b : β) :
    ∑ a ∈ S, (obs.filter fun p => decide (p.1 = a ∧ p.2 = b)).length
      = (obs.filter fun p => decide (p.2 = b)).length := by
  have hsub : ∀ q ∈ obs.filter fun p => decide (p.2 = b), q.1 ∈ S := fun q hq =>
    h q (List.mem_of_mem_filter hq)
  calc ∑ a ∈ S, (obs.filter fun p => decide (p.1 = a ∧ p.2 = b)).length
      = ∑ a ∈ S, ((obs.filter fun p => decide (p.2 = b)).filter
          fun p => decide (p.1 = a)).length :=
        Finset.sum_congr rfl fun a _ => filter_pair_split_snd obs a b
    _ = _ := sum_length_filter_key _ Prod.fst S hsub

/-! ### Supporting lemmas: structure of `crosstabCore` tables -/

lemma crosstabCore_rowLabels (xs ys : List Cell) :
    (crosstabCore xs ys).rowLabels = ((pairedObs xs ys).map Prod.fst).dedup := rfl

lemma crosstabCore_colLabels (xs ys : List Cell) :
    (crosstabCore xs ys).colLabels = ((pairedObs xs ys).map Prod.snd).dedup := rfl

lemma crosstabCore_counts (xs ys : List Cell) :
    (crosstabCore xs ys).counts
      = (crosstabCore xs ys).rowLabels.map fun a => (crosstabCore xs ys).colLabels.map
          fun b => ((countPair (pairedObs xs ys) a b : ℕ) : ℚ) := rfl

lemma mem_rowLabels_iff {xs ys : List Cell} {a : Cell} :
    a ∈ (crosstabCore xs ys).rowLabels ↔ a ∈ (pairedObs xs ys).map Prod.fst := by
  rw [crosstabCore_rowLabels, List.mem_dedup]

lemma mem_colLabels_iff {xs ys : List Cell} {b : Cell} :
    b ∈ (crosstabCore xs ys).colLabels ↔ b ∈ (pairedObs xs ys).map Prod.snd := by
  rw [crosstabCore_colLabels, List.mem_dedup]

lemma nodup_rowLabels (xs ys : List Cell) : (crosstabCore xs ys).rowLabels.Nodup :=
  List.nodup_dedup _

lemma nodup_colLabels (xs ys : List Cell) : (crosstabCore xs ys).colLabels.Nodup :=
  List.nodup_dedup _

lemma filter_fst_pos {obs : List (Cell × Cell)} {a : Cell} (ha : a ∈ obs.map Prod.fst) :
    0 < (obs.filter fun p => decide (p.1 = a)).length := by
  obtain ⟨p, hp, rfl⟩ := List.mem_map.mp ha
  have hmem : p ∈ obs.filter fun q => decide (q.1 = p.1) := List.mem_filter.mpr ⟨hp, by simp⟩
  exact List.length_pos.mpr (List.ne_nil_of_mem hmem)

lemma filter_snd_pos {obs : List (Cell × Cell)} {b : Cell} (hb : b ∈ obs.map Prod.snd) :
    0 < (obs.filter fun p => decide (p.2 = b)).length := by
  obtain ⟨p, hp, rfl⟩ := List.mem_map.mp hb
  have hmem : p ∈ obs.filter fun q => decide (q.2 = p.2) := List.mem_filter.mpr ⟨hp, by simp⟩
  exact List.length_pos.mpr (List.ne_nil_of_mem hmem)

lemma sum_map_natCast {α : Type} (l : List α) (f : α → ℕ) :
    (l.map fun x => ((f x : ℕ) : ℚ)).sum = (((l.map f).sum : ℕ) : ℚ) := by
  induction l with
  | nil => simp
  | cons x xs ih => simp [ih]

lemma sum_counts_over_labels (obs : List (Cell × Cell)) (cls : List Cell)
    (hnd : cls.Nodup) (hsub : ∀ p ∈ obs, p.2 ∈ cls) (a : Cell) :
    (cls.map fun b => countPair obs a b).sum
      = (obs.filter fun p => decide (p.1 = a)).length := by
  have h2 : ∀ p ∈ obs, p.2 ∈ cls.toFinset := fun p hp => List.mem_toFinset.mpr (hsub p hp)
  rw [← List.sum_toFinset _ hnd]
  exact sum_count_pairs obs cls.toFinset h2 a

lemma sum_counts_over_rows (obs : List (Cell × Cell)) (rls : List Cell)
    (hnd : rls.Nodup) (hsub : ∀ p ∈ obs, p.1 ∈ rls) (b : Cell) :
    (rls.map fun a => countPair obs a b).sum
      = (obs.filter fun p => decide (p.2 = b)).length := by
  have h2 : ∀ p ∈ obs, p.1 ∈ rls.toFinset := fun p hp => List.mem_toFinset.mpr (hsub p hp)
  rw [← List.sum_toFinset _ hnd]
  exact sum_count_pairs_snd obs rls.toFinset h2 b

lemma crosstab_row_sum (xs ys : List Cell) (a : Cell) :
    ((crosstabCore xs ys).colLabels.map
        fun b => ((countPair (pairedObs xs ys) a b : ℕ) : ℚ)).sum
      = ((((pairedObs xs ys).filter fun p => decide (p.1 = a)).length : ℕ) : ℚ) := by
  rw [sum_map_natCast]
  congr 1
  exact sum_counts_over_labels _ _ (nodup_colLabels xs ys)
    (fun p hp => mem_colLabels_iff.mpr (List.mem_map_of_mem Prod.snd hp)) a

lemma sum_map_mul_const (l : List ℚ) (b : ℚ) : (l.map fun x => x * b).sum = l.sum * b := by
  induction l with
  | nil => simp
  | cons x xs ih =>
    simp only [List.map_cons, List.sum_cons, ih]
    ring

lemma normalizeRows_row_sum (r : List ℚ) (hr : r.sum ≠ 0) :
    (r.map fun x => x / r.sum * 100).sum = 100 := by
  have hfun : (fun x => x / r.sum * 100) = fun x : ℚ => x * (100 / r.sum) := by
    funext x
    ring
  rw [hfun, sum_map_mul_const]
  field_simp

/-! ### Claim theorems: C10, C1, C2 -/

/-- C10: `filter_crosstab_by_category` treats an empty `row_categories` (resp.
`col_categories`) list exactly like `None` — the axis is left unfiltered, the
empty list is not a request for an empty sub-table. -/
theorem filter_crosstab_empty_list_no_restriction (ct : CTable)
    (rc cc : Option (List String)) :
    filter_crosstab_by_category ct (some []) cc = filter_crosstab_by_category ct none cc
      ∧ filter_crosstab_by_category ct rc (some []) = filter_crosstab_by_category ct rc none :=
  ⟨rfl, rfl⟩

/-- Dataset used for the C1 failing input: columns `A` and `B` exist and form
a valid 2×2 pair; column `Z` does not exist. -/
def dfC1 : DFrame :=
  ⟨["A", "B"],
   [[Cell.text "x", Cell.text "u"], [Cell.text "x", Cell.text "v"],
    [Cell.text "y", Cell.text "u"], [Cell.text "y", Cell.text "v"]], []⟩

/-- Config used for the C1 failing input (no question mapping). -/
def cfgC1 : SurveyConfig := ⟨[], 1 / 20, []⟩

/-- C1 (code bug exhibit): on the pair list `[("Z","A"), ("A","B")]` over
`dfC1`, the batch `run_all_chi_square_tests` propagates the missing-column
error of its first pair and returns nothing, even though the remaining pair
`("A","B")` would succeed on its own — the source loop has no `try/except`,
so a single failing pair aborts the batch instead of being recorded. -/
theorem run_all_chi_square_aborts_on_failing_pair :
    run_all_chi_square_tests dfC1 [("Z", "A"), ("A", "B")] cfgC1
        = Except.error (StatsError.columnNotFound "Z")
      ∧ (chi_square_test dfC1 "A" "B" (some cfgC1)).isOk = true :=
  ⟨rfl, rfl⟩

/-- Dataset used for the C2 counterexample: a single row category `x` with two
column categories `u`, `v`, one observation each. -/
def dfC2 : DFrame :=
  ⟨["a", "b"], [[Cell.text "x", Cell.text "u"], [Cell.text "x", Cell.text "v"]], []⟩

/-- The table `create_crosstab` produces for `dfC2` with margins and row
normalization, before the cell arithmetic is evaluated. -/
theorem create_crosstab_dfC2_eval :
    create_crosstab dfC2 "a" "b" none (some NormalizeKind.index) true
      = Except.ok ⟨[Cell.text "x", totalLabel], [Cell.text "u", Cell.text "v", totalLabel],
          normalizeRows (addMargins ⟨[Cell.text "x"], [Cell.text "u", Cell.text "v"],
            [[((1 : ℕ) : ℚ), ((1 : ℕ) : ℚ)]]⟩).counts⟩ := rfl

/-- C2 (counterexample): requesting margins together with row normalization
divides by row sums that still contain the `合計` margin column, so the
normalized interior cells of the row `x` (the cells left after stripping the
margin labels) sum to 50, not 100 — the margin is not excluded from the
normalization denominator before the percentages are computed. -/
theorem create_crosstab_margins_pollute_normalization :
    create_crosstab dfC2 "a" "b" none (some NormalizeKind.index) true
        = Except.ok ⟨[Cell.text "x", totalLabel],
            [Cell.text "u", Cell.text "v", totalLabel],
            [[25, 25, 50], [25, 25, 50]]⟩
      ∧ ((stripMargins ⟨[Cell.text "x", totalLabel],
            [Cell.text "u", Cell.text "v", totalLabel],
            [[25, 25, 50], [25, 25, 50]]⟩).counts.getD 0 []).sum ≠ 100 := by
  constructor
  · rw [create_crosstab_dfC2_eval]
    have hm : (addMargins ⟨[Cell.text "x"], [Cell.text "u", Cell.text "v"],
        [[((1 : ℕ) : ℚ), ((1 : ℕ) : ℚ)]]⟩).counts = [[1, 1, 2], [1, 1, 2]] := by
      have hr : List.range 2 = [0, 1] := rfl
      simp [addMargins, colSumsOf, hr]
      norm_num
    have hn : normalizeRows [[(1 : ℚ), 1, 2], [1, 1, 2]] = [[25, 25, 50], [25, 25, 50]] := by
      simp [normalizeRows]
      norm_num
    rw [hm, hn]
  · have h : (stripMargins ⟨[Cell.text "x", totalLabel],
        [Cell.text "u", Cell.text "v", totalLabel],
        [[(25 : ℚ), 25, 50], [25, 25, 50]]⟩).counts = [[25, 25]] := by
      simp [stripMargins, dropTotalCols, totalLabel]
    rw [h]
    norm_num

lemma crosstab_counts_row_sum_pos (xs ys : List Cell) (r : List ℚ)
    (hr : r ∈ (crosstabCore xs ys).counts) : 0 < r.sum := by
  rw [crosstabCore_counts] at hr
  obtain ⟨a, ha, rfl⟩ := List.mem_map.mp hr
  rw [crosstab_row_sum]
  exact_mod_cast filter_fst_pos (mem_rowLabels_iff.mp ha)

lemma create_crosstab_ok_index_no_margins (df : DFrame) (row_var col_var : String)
    (config : Option SurveyConfig)
    (hA : df.hasCol (resolveVar config row_var) = true)
    (hB : df.hasCol (resolveVar config col_var) = true) :
    create_crosstab df row_var col_var config (some NormalizeKind.index) false
      = Except.ok
          ⟨(crosstabCore (df.getCol (resolveVar config row_var))
              (df.getCol (resolveVar config col_var))).rowLabels,
           (crosstabCore (df.getCol (resolveVar config row_var))
              (df.getCol (resolveVar config col_var))).colLabels,
           normalizeRows (crosstabCore (df.getCol (resolveVar config row_var))
              (df.getCol (resolveVar config col_var))).counts⟩ := by
  rw [create_crosstab]
  rw [if_pos hA, if_pos hB]
  rfl

/-- Dataset for the C6 concrete example: two respondents in group `g` with
multi-select answers `A、B` and `B、C`. -/
def dfC6 : DFrame :=
  ⟨["r", "c"], [[Cell.text "g", Cell.text "A、B"], [Cell.text "g", Cell.text "B、C"]], []⟩

/-- Dataset for the C6 witness of the empty case: the only value of the
multi-select column is missing, so no observation survives filtering. -/
def dfC6e : DFrame := ⟨["r", "c"], [[Cell.text "g", Cell.missing]], []⟩

/-- C6: `create_multiselect_crosstab` keeps only rows whose column value is a
text cell (missing and non-text dropped), splits them on the delimiter,
discards empty trimmed tags, and returns the explicitly empty table — not an
error — whenever no observation survives; on the two respondents `A、B` and
`B、C` under delimiter `、` it returns the single-row table with column set
`A`, `B`, `C` and `B` counted twice. -/
theorem create_multiselect_crosstab_spec :
    (∀ (df : DFrame) (row_var col_var : String) (config : Option SurveyConfig) (d : String),
        df.hasCol (resolveVar config row_var) = true →
        df.hasCol (resolveVar config col_var) = true →
        multiselectExpanded (df.getCol (resolveVar config row_var))
            (df.getCol (resolveVar config col_var)) d = [] →
        create_multiselect_crosstab df row_var col_var config d = Except.ok emptyCTable)
      ∧ create_multiselect_crosstab dfC6 "r" "c" none "、"
          = Except.ok ⟨[Cell.text "g"], [Cell.text "A", Cell.text "B", Cell.text "C"],
              [[1, 2, 1]]⟩ := by
  constructor
  · intro df rv cv cfg d hA hB hexp
    rw [create_multiselect_crosstab]
    simp only [hA, hB, Bool.and_self, if_true]
    by_cases hw : (multiselectWork (df.getCol (resolveVar cfg rv))
        (df.getCol (resolveVar cfg cv))).isEmpty
    · simp [hw]
    · simp [hw, hexp]
  · have h0 : create_multiselect_crosstab dfC6 "r" "c" none "、"
        = Except.ok ⟨[Cell.text "g"], [Cell.text "A", Cell.text "B", Cell.text "C"],
            [[((1 : ℕ) : ℚ), ((2 : ℕ) : ℚ), ((1 : ℕ) : ℚ)]]⟩ := rfl
    rw [h0]
    norm_num

/-- Witness for `create_multiselect_crosstab_spec`: its empty-result branch
applied at a concrete dataset whose only multi-select value is missing. -/
theorem create_multiselect_crosstab_spec_witness :
    create_multiselect_crosstab dfC6e "r" "c" none "、" = Except.ok emptyCTable :=
  create_multiselect_crosstab_spec.1 dfC6e "r" "c" none "、" rfl rfl rfl

/-- C4: for a tier declaring one pair of existing columns (carrying at least
one paired observation — `pd.crosstab` over margins is only exercised on
nonempty data) and one pair whose resolved row or column is absent from the
dataset — in either declared order, in particular with the failing pair
first — `analyze_crosstabs_by_tier` returns exactly the one table it could
build, stored under its `row_x_col` key, records exactly one warning for the
failed pair, and — being a total function whose per-pair `try/except` is the
`match` below — never raises. -/
theorem analyze_crosstabs_by_tier_isolates_failure
    (df : DFrame) (cfg : SurveyConfig) (tier : String) (r1 c1 r2 c2 : String)
    (hp : cfg.tierPairs tier = [(r1, c1), (r2, c2)]
        ∨ cfg.tierPairs tier = [(r2, c2), (r1, c1)])
    (h1 : df.hasCol (cfg.get_column_name r1) = true)
    (h2 : df.hasCol (cfg.get_column_name c1) = true)
    (hobs : pairedObs (df.getCol (cfg.get_column_name r1))
        (df.getCol (cfg.get_column_name c1)) ≠ [])
    (hbad : df.hasCol (cfg.get_column_name r2) = false
        ∨ df.hasCol (cfg.get_column_name c2) = false) :
    ∃ (t : CTable) (msg : String),
      analyze_crosstabs_by_tier df cfg tier = ([(r1 ++ "_x_" ++ c1, t)], [msg]) := by
  have hres : ∀ v, resolveVar (some cfg) v = cfg.get_column_name v := fun _ => rfl
  have hok : create_crosstab_with_totals df r1 c1 (some cfg)
      = Except.ok (addMargins (crosstabCore (df.getCol (cfg.get_column_name r1))
          (df.getCol (cfg.get_column_name c1)))) := by
    rw [create_crosstab_with_totals, create_crosstab]
    simp only [hres]
    rw [if_pos h1, if_pos h2]
    rfl
  have hbad' : ∃ e, create_crosstab_with_totals df r2 c2 (some cfg) = Except.error e := by
    rw [create_crosstab_with_totals, create_crosstab]
    simp only [hres]
    by_cases hr2 : df.hasCol (cfg.get_column_name r2) = true
    · rcases hbad with hb | hb
      · rw [hb] at hr2
        exact absurd hr2 (by simp)
      · rw [if_pos hr2, if_neg (by simp [hb])]
        exact ⟨_, rfl⟩
    · rw [if_neg hr2]
      exact ⟨_, rfl⟩
  obtain ⟨e, he⟩ := hbad'
  refine ⟨addMargins (crosstabCore (df.getCol (cfg.get_column_name r1))
      (df.getCol (cfg.get_column_name c1))),
    r2 ++ "_x_" ++ c2 ++ " のクロス集計に失敗: " ++ ctErrorMessage e, ?_⟩
  rcases hp with hp | hp
  · rw [analyze_crosstabs_by_tier, hp]
    simp only [List.foldl_cons, List.foldl_nil, hok, he]
    simp
  · rw [analyze_crosstabs_by_tier, hp]
    simp only [List.foldl_cons, List.foldl_nil, hok, he]
    simp

/-- Config for the C4 witness: tier `tier1` holds the valid pair `(A, B)`
before the pair `(Z, B)` whose row column does not exist in `dfC1`, and tier
`tier2` declares the same two pairs with the failing pair first. -/
def cfgC4 : SurveyConfig :=
  ⟨[], 1 / 20,
   [("tier1", [("A", "B"), ("Z", "B")]), ("tier2", [("Z", "B"), ("A", "B")])]⟩

/-- Witness for `analyze_crosstabs_by_tier_isolates_failure` at the concrete
dataset `dfC1` and config `cfgC4`, exercising both declared orders — in
particular the failing-pair-first tier, where the batch continues past the
failure. -/
theorem analyze_crosstabs_by_tier_isolates_failure_witness :
    (∃ (t : CTable) (msg : String),
      analyze_crosstabs_by_tier dfC1 cfgC4 "tier1" = ([("A" ++ "_x_" ++ "B", t)], [msg]))
    ∧ (∃ (t : CTable) (msg : String),
      analyze_crosstabs_by_tier dfC1 cfgC4 "tier2" = ([("A" ++ "_x_" ++ "B", t)], [msg])) :=
  ⟨analyze_crosstabs_by_tier_isolates_failure dfC1 cfgC4 "tier1" "A" "B" "Z" "B"
      (Or.inl rfl) rfl rfl (by decide) (Or.inl rfl),
   analyze_crosstabs_by_tier_isolates_failure dfC1 cfgC4 "tier2" "A" "B" "Z" "B"
      (Or.inr rfl) rfl rfl (by decide) (Or.inl rfl)⟩

/-- C2 (amended): for every row-normalized crosstab built without margins,
every row of the table sums to exactly 100 (hence within any floating
tolerance); when margins are requested together with normalization the
normalization denominator additionally contains the margin cell, so the
interior cells of a row sum to 50 instead (see the counterexample). -/
theorem create_crosstab_row_normalized_sums (df : DFrame) (row_var col_var : String)
    (config : Option SurveyConfig) (t : CTable)
    (h : create_crosstab df row_var col_var config (some NormalizeKind.index) false
        = Except.ok t) :
    ∀ row ∈ t.counts, row.sum = 100 := by
  by_cases hA : df.hasCol (resolveVar config row_var)
  · by_cases hB : df.hasCol (resolveVar config col_var)
    · rw [create_crosstab_ok_index_no_margins df row_var col_var config hA hB] at h
      cases h
      intro row hrow
      obtain ⟨r, hr, rfl⟩ := List.mem_map.mp hrow
      exact normalizeRows_row_sum r (ne_of_gt (crosstab_counts_row_sum_pos _ _ r hr))
    · simp [create_crosstab, hA, hB] at h
  · simp [create_crosstab, hA] at h

/-- Witness for `create_crosstab_row_normalized_sums`: the row-normalized,
margin-free crosstab of `dfC2` has its (only) row summing to 100. -/
theorem create_crosstab_row_normalized_sums_witness :
    ((normalizeRows [[((1 : ℕ) : ℚ), ((1 : ℕ) : ℚ)]]).getD 0 []).sum = 100 := by
  have h := create_crosstab_row_normalized_sums dfC2 "a" "b" none
    ⟨[Cell.text "x"], [Cell.text "u", Cell.text "v"],
      normalizeRows [[((1 : ℕ) : ℚ), ((1 : ℕ) : ℚ)]]⟩ rfl
  exact h _ (by simp [normalizeRows])


/-! ### Supporting lemmas: first-occurrence argmax and flattened indexing -/

lemma argmaxGo_spec (xs : List ℚ) : ∀ (best cur : ℕ) (bestVal : ℚ),
    (argmaxGo xs best bestVal cur = best ∧ ∀ k, k < xs.length → xs.getD k 0 ≤ bestVal)
    ∨ (∃ k, k < xs.length ∧ argmaxGo xs best bestVal cur = cur + k
        ∧ bestVal < xs.getD k 0
        ∧ (∀ k2, k2 < xs.length → xs.getD k2 0 ≤ xs.getD k 0)
        ∧ (∀ k2, k2 < k → xs.getD k2 0 < xs.getD k 0)) := by
  induction xs with
  | nil =>
    intro best cur bestVal
    left
    exact ⟨rfl, by simp⟩
  | cons x rest ih =>
    intro best cur bestVal
    rw [argmaxGo]
    by_cases hx : bestVal < x
    · rw [if_pos hx]
      rcases ih cur (cur + 1) x with ⟨heq, hle⟩ | ⟨k, hk, heq, hlt, hmax, hfirst⟩
      · right
        refine ⟨0, by simp, by simpa using heq, by simpa using hx, ?_, ?_⟩
        · intro k2 hk2
          cases k2 with
          | zero => simp
          | succ j =>
            simp only [List.getD_cons_succ, List.getD_cons_zero]
            exact hle j (by simpa using hk2)
        · intro k2 hk2
          omega
      · right
        refine ⟨k + 1, by simpa using hk, by rw [heq]; omega, ?_, ?_, ?_⟩
        · simp only [List.getD_cons_succ]
          exact lt_trans hx hlt
        · intro k2 hk2
          cases k2 with
          | zero =>
            simp only [List.getD_cons_succ, List.getD_cons_zero]
            exact le_of_lt hlt
          | succ j =>
            simp only [List.getD_cons_succ]
            exact hmax j (by simpa using hk2)
        · intro k2 hk2
          cases k2 with
          | zero =>
            simp only [List.getD_cons_succ, List.getD_cons_zero]
            exact hlt
          | succ j =>
            simp only [List.getD_cons_succ]
            exact hfirst j (by omega)
    · rw [if_neg hx]
      rcases ih best (cur + 1) bestVal with ⟨heq, hle⟩ | ⟨k, hk, heq, hlt, hmax, hfirst⟩
      · left
        refine ⟨heq, ?_⟩
        intro k2 hk2
        cases k2 with
        | zero => simpa using le_of_not_lt hx
        | succ j =>
          simp only [List.getD_cons_succ]
          exact hle j (by simpa using hk2)
      · right
        refine ⟨k + 1, by simpa using hk, by rw [heq]; omega, ?_, ?_, ?_⟩
        · simp only [List.getD_cons_succ]
          exact hlt
        · intro k2 hk2
          cases k2 with
          | zero =>
            simp only [List.getD_cons_succ, List.getD_cons_zero]
            exact le_trans (le_of_not_lt hx) (le_of_lt hlt)
          | succ j =>
            simp only [List.getD_cons_succ]
            exact hmax j (by simpa using hk2)
        · intro k2 hk2
          cases k2 with
          | zero =>
            simp only [List.getD_cons_succ, List.getD_cons_zero]
            exact lt_of_le_of_lt (le_of_not_lt hx) hlt
          | succ j =>
            simp only [List.getD_cons_succ]
            exact hfirst j (by omega)

lemma listArgmax_spec (l : List ℚ) (hl : l ≠ []) :
    listArgmax l < l.length
      ∧ (∀ k, k < l.length → l.getD k 0 ≤ l.getD (listArgmax l) 0)
      ∧ (∀ k, k < listArgmax l → l.getD k 0 < l.getD (listArgmax l) 0) := by
  match l, hl with
  | x :: rest, _ =>
    rw [listArgmax]
    rcases argmaxGo_spec rest 0 1 x with ⟨heq, hle⟩ | ⟨k, hk, heq, hlt, hmax, hfirst⟩
    · rw [heq]
      refine ⟨by simp, ?_, ?_⟩
      · intro k hkl
        cases k with
        | zero => simp
        | succ j =>
          simp only [List.getD_cons_succ, List.getD_cons_zero]
          exact hle j (by simpa using hkl)
      · intro k hk
        omega
    · rw [heq]
      have h1k : 1 + k = k + 1 := by omega
      rw [h1k]
      refine ⟨by simpa using hk, ?_, ?_⟩
      · intro k2 hk2
        cases k2 with
        | zero =>
          simp only [List.getD_cons_succ, List.getD_cons_zero]
          exact le_of_lt hlt
        | succ j =>
          simp only [List.getD_cons_succ]
          exact hmax j (by simpa using hk2)
      · intro k2 hk2
        cases k2 with
        | zero =>
          simp only [List.getD_cons_succ, List.getD_cons_zero]
          exact hlt
        | succ j =>
          simp only [List.getD_cons_succ]
          exact hfirst j (by omega)

lemma flatten_length_rect (m : List (List ℚ)) (w : ℕ) (hw : ∀ r ∈ m, r.length = w) :
    m.flatten.length = m.length * w := by
  induction m with
  | nil => simp
  | cons r rest ih =>
    have hr : r.length = w := hw r (by simp)
    have hrest : ∀ q ∈ rest, q.length = w := fun q hq => hw q (by simp [hq])
    simp only [List.flatten_cons, List.length_append, ih hrest, hr, List.length_cons]
    ring

lemma flatten_getD_rect (m : List (List ℚ)) (w : ℕ) (hw : ∀ r ∈ m, r.length = w)
    (i j : ℕ) (hi : i < m.length) (hj : j < w) :
    m.flatten.getD (i * w + j) 0 = (m.getD i []).getD j 0 := by
  induction m generalizing i with
  | nil => simp at hi
  | cons r rest ih =>
    have hr : r.length = w := hw r (by simp)
    have hrest : ∀ q ∈ rest, q.length = w := fun q hq => hw q (by simp [hq])
    cases i with
    | zero =>
      simp only [List.flatten_cons, Nat.zero_mul, Nat.zero_add, List.getD_cons_zero]
      exact List.getD_append _ _ _ _ (by omega)
    | succ i2 =>
      simp only [List.flatten_cons, List.getD_cons_succ]
      rw [List.getD_append_right _ _ _ _ (by rw [hr]; nlinarith)]
      have harith : (i2 + 1) * w + j - r.length = i2 * w + j := by
        rw [hr]
        ring_nf
        omega
      rw [harith]
      exact ih hrest i2 (by simpa using hi)

/-! ### Supporting lemmas: margin stripping -/

lemma stripMargins_row_no_total (t : CTable) :
    ∀ a ∈ (stripMargins t).rowLabels, a ≠ totalLabel := by
  intro a ha
  rw [stripMargins] at ha
  obtain ⟨p, hp, rfl⟩ := List.mem_map.mp ha
  simpa using (List.mem_filter.mp hp).2

lemma stripMargins_col_no_total (t : CTable) :
    ∀ b ∈ (stripMargins t).colLabels, b ≠ totalLabel := by
  intro b hb
  rw [stripMargins] at hb
  simpa using (List.mem_filter.mp hb).2

lemma dropTotalCols_of_no_total (cls : List Cell) (r : List ℚ)
    (hcl : ∀ c ∈ cls, c ≠ totalLabel) (hlen : r.length ≤ cls.length) :
    dropTotalCols cls r = r := by
  rw [dropTotalCols]
  have hfil : ((cls.zip r).filter fun p => decide (p.1 ≠ totalLabel)) = cls.zip r := by
    apply List.filter_eq_self.mpr
    intro p hp
    simpa using hcl p.1 (List.of_mem_zip hp).1
  rw [hfil]
  exact List.map_snd_zip cls r hlen

lemma filter_zip_length_le (cls : List Cell) (r : List ℚ) :
    ((cls.zip r).filter fun p => decide (p.1 ≠ totalLabel)).length
      ≤ (cls.filter fun c => decide (c ≠ totalLabel)).length := by
  induction cls generalizing r with
  | nil => simp
  | cons c cs ih =>
    cases r with
    | nil => simp
    | cons x rs =>
      by_cases hc : c = totalLabel
      · simp only [List.zip_cons_cons, List.filter_cons, hc]
        simpa using ih rs
      · have hih := ih rs
        have hd : decide ((c, x).1 ≠ totalLabel) = true := by simpa using hc
        have hd2 : decide (c ≠ totalLabel) = true := by simpa using hc
        simp only [List.zip_cons_cons, List.filter_cons, hd, hd2, if_true, List.length_cons]
        omega

lemma dropTotalCols_length_le (cls : List Cell) (r : List ℚ) :
    (dropTotalCols cls r).length ≤ (cls.filter fun c => decide (c ≠ totalLabel)).length := by
  rw [dropTotalCols, List.length_map]
  exact filter_zip_length_le cls r

lemma stripMargins_idem (t : CTable) : stripMargins (stripMargins t) = stripMargins t := by
  have hLR : (stripMargins t).rowLabels.length = (stripMargins t).counts.length := by
    rw [stripMargins]
    simp
  have hfilrows : (((stripMargins t).rowLabels.zip (stripMargins t).counts).filter
      fun p => decide (p.1 ≠ totalLabel))
        = (stripMargins t).rowLabels.zip (stripMargins t).counts := by
    apply List.filter_eq_self.mpr
    intro p hp
    simpa using stripMargins_row_no_total t p.1 (List.of_mem_zip hp).1
  have hfilcols : ((stripMargins t).colLabels.filter fun c => decide (c ≠ totalLabel))
      = (stripMargins t).colLabels := by
    apply List.filter_eq_self.mpr
    intro c hc
    simpa using stripMargins_col_no_total t c hc
  have hdrop : ∀ r ∈ (stripMargins t).counts,
      dropTotalCols (stripMargins t).colLabels r = r := by
    intro r hr
    apply dropTotalCols_of_no_total _ _ (stripMargins_col_no_total t)
    have hrlen : r.length ≤ (t.colLabels.filter fun c => decide (c ≠ totalLabel)).length := by
      rw [stripMargins] at hr
      obtain ⟨p, hp, rfl⟩ := List.mem_map.mp hr
      exact dropTotalCols_length_le t.colLabels p.2
    calc r.length
        ≤ (t.colLabels.filter fun c => decide (c ≠ totalLabel)).length := hrlen
      _ = (stripMargins t).colLabels.length := by rw [stripMargins]
  conv_lhs => rw [stripMargins]
  rw [hfilrows, hfilcols]
  have e1 : ((stripMargins t).rowLabels.zip (stripMargins t).counts).map Prod.fst
      = (stripMargins t).rowLabels :=
    List.map_fst_zip _ _ (le_of_eq hLR)
  have e3 : ((stripMargins t).rowLabels.zip (stripMargins t).counts).map
      (fun p => dropTotalCols (stripMargins t).colLabels p.2)
        = (stripMargins t).counts := by
    have h2 : ((stripMargins t).rowLabels.zip (stripMargins t).counts).map
        (fun p => dropTotalCols (stripMargins t).colLabels p.2)
          = (((stripMargins t).rowLabels.zip (stripMargins t).counts).map Prod.snd).map
              (dropTotalCols (stripMargins t).colLabels) := by
      rw [List.map_map]
      rfl
    rw [h2, List.map_snd_zip _ _ (le_of_eq hLR.symm)]
    have h3 : (stripMargins t).counts.map (dropTotalCols (stripMargins t).colLabels)
        = (stripMargins t).counts.map id := List.map_congr_left hdrop
    rw [h3, List.map_id]
  rw [e1, e3]

/-- C8: `get_crosstab_summary` first strips any `合計` margin row/column (so
its result on any table equals its result on the stripped table), and the
reported `max_cell` is an interior cell attaining the maximum count whose
row-major position is least among all maximal cells — on a tie the lowest row
index and then the lowest column index wins.  Stated for tables whose
stripped cell matrix is rectangular and non-empty (`np.argmax` on an empty
array raises, and the claim restricts itself to non-empty tables). -/
theorem get_crosstab_summary_spec (ct : CTable) (row_var col_var : String)
    (hrect : ∀ r ∈ (stripMargins ct).counts, r.length = (stripMargins ct).colLabels.length)
    (hne : (stripMargins ct).counts.flatten ≠ []) :
    get_crosstab_summary ct row_var col_var
        = get_crosstab_summary (stripMargins ct) row_var col_var
      ∧ ∃ i j,
          i < (stripMargins ct).counts.length
          ∧ j < (stripMargins ct).colLabels.length
          ∧ (get_crosstab_summary ct row_var col_var).maxRow
              = (stripMargins ct).rowLabels.getD i Cell.missing
          ∧ (get_crosstab_summary ct row_var col_var).maxCol
              = (stripMargins ct).colLabels.getD j Cell.missing
          ∧ (get_crosstab_summary ct row_var col_var).maxCount
              = ((stripMargins ct).counts.getD i []).getD j 0
          ∧ (∀ i2 j2, i2 < (stripMargins ct).counts.length
              → j2 < (stripMargins ct).colLabels.length
              → ((stripMargins ct).counts.getD i2 []).getD j2 0
                  ≤ (get_crosstab_summary ct row_var col_var).maxCount)
          ∧ (∀ i2 j2, i2 < (stripMargins ct).counts.length
              → j2 < (stripMargins ct).colLabels.length
              → ((stripMargins ct).counts.getD i2 []).getD j2 0
                  = (get_crosstab_summary ct row_var col_var).maxCount
              → i * (stripMargins ct).colLabels.length + j
                  ≤ i2 * (stripMargins ct).colLabels.length + j2) := by
  constructor
  · simp only [get_crosstab_summary, stripMargins_idem]
  · obtain ⟨hKlt, hmax, hfirst⟩ := listArgmax_spec ((stripMargins ct).counts.flatten) hne
    have hlen : (stripMargins ct).counts.flatten.length
        = (stripMargins ct).counts.length * (stripMargins ct).colLabels.length :=
      flatten_length_rect _ _ hrect
    have hw : 0 < (stripMargins ct).colLabels.length := by
      rcases Nat.eq_zero_or_pos (stripMargins ct).colLabels.length with h0 | h0
      · rw [h0, Nat.mul_zero] at hlen
        exact absurd (List.length_eq_zero.mp hlen) hne
      · exact h0
    have hK : listArgmax ((stripMargins ct).counts.flatten)
        < (stripMargins ct).counts.length * (stripMargins ct).colLabels.length :=
      hlen ▸ hKlt
    have hj : listArgmax ((stripMargins ct).counts.flatten) % (stripMargins ct).colLabels.length
        < (stripMargins ct).colLabels.length := Nat.mod_lt _ hw
    have hi : listArgmax ((stripMargins ct).counts.flatten) / (stripMargins ct).colLabels.length
        < (stripMargins ct).counts.length := (Nat.div_lt_iff_lt_mul hw).mpr hK
    have hij : listArgmax ((stripMargins ct).counts.flatten)
          / (stripMargins ct).colLabels.length * (stripMargins ct).colLabels.length
        + listArgmax ((stripMargins ct).counts.flatten) % (stripMargins ct).colLabels.length
        = listArgmax ((stripMargins ct).counts.flatten) := by
      rw [Nat.mul_comm]
      exact Nat.div_add_mod _ _
    have hcellK : (stripMargins ct).counts.flatten.getD
          (listArgmax ((stripMargins ct).counts.flatten)) 0
        = ((stripMargins ct).counts.getD
            (listArgmax ((stripMargins ct).counts.flatten)
              / (stripMargins ct).colLabels.length) []).getD
            (listArgmax ((stripMargins ct).counts.flatten)
              % (stripMargins ct).colLabels.length) 0 := by
      have h0 := flatten_getD_rect (stripMargins ct).counts
        (stripMargins ct).colLabels.length hrect _ _ hi hj
      rw [hij] at h0
      exact h0
    have hcellAt : ∀ i2 j2, i2 < (stripMargins ct).counts.length
        → j2 < (stripMargins ct).colLabels.length
        → ((stripMargins ct).counts.getD i2 []).getD j2 0
            = (stripMargins ct).counts.flatten.getD
                (i2 * (stripMargins ct).colLabels.length + j2) 0 :=
      fun i2 j2 h2 h3 => (flatten_getD_rect _ _ hrect i2 j2 h2 h3).symm
    have hposlt : ∀ i2 j2, i2 < (stripMargins ct).counts.length
        → j2 < (stripMargins ct).colLabels.length
        → i2 * (stripMargins ct).colLabels.length + j2
            < (stripMargins ct).counts.length * (stripMargins ct).colLabels.length := by
      intro i2 j2 h2 h3
      calc i2 * (stripMargins ct).colLabels.length + j2
          < (i2 + 1) * (stripMargins ct).colLabels.length := by
            rw [Nat.add_mul, Nat.one_mul]
            omega
        _ ≤ (stripMargins ct).counts.length * (stripMargins ct).colLabels.length :=
            Nat.mul_le_mul_right _ (by omega)
    refine ⟨_, _, hi, hj, rfl, rfl, hcellK, ?_, ?_⟩
    · intro i2 j2 h2 h3
      rw [hcellAt i2 j2 h2 h3]
      show _ ≤ (stripMargins ct).counts.flatten.getD
          (listArgmax ((stripMargins ct).counts.flatten)) 0
      exact hmax _ (hlen ▸ hposlt i2 j2 h2 h3)
    · intro i2 j2 h2 h3 heq
      by_contra hcon
      have hlt : i2 * (stripMargins ct).colLabels.length + j2
          < listArgmax ((stripMargins ct).counts.flatten) := by
        rw [hij] at hcon
        omega
      have := hfirst _ hlt
      rw [← hcellAt i2 j2 h2 h3] at this
      have heq2 : ((stripMargins ct).counts.getD i2 []).getD j2 0
          = (stripMargins ct).counts.flatten.getD
              (listArgmax ((stripMargins ct).counts.flatten)) 0 := heq
      rw [heq2] at this
      exact lt_irrefl _ this

/-- Table used as the C8 witness: margins present and a tie between the
interior cells `(0,1)` and `(1,0)`, both holding 5. -/
def ctC8 : CTable :=
  ⟨[Cell.text "a", Cell.text "b", totalLabel],
   [Cell.text "u", Cell.text "v", totalLabel],
   [[3, 5, 8], [5, 2, 7], [8, 7, 15]]⟩

/-- Witness for `get_crosstab_summary_spec` at the concrete table `ctC8`. -/
theorem get_crosstab_summary_spec_witness :
    get_crosstab_summary ctC8 "r" "c" = get_crosstab_summary (stripMargins ctC8) "r" "c" :=
  (get_crosstab_summary_spec ctC8 "r" "c" (by decide) (by decide)).1

/-! ### Supporting lemmas: argsort and unsorting -/

lemma argsortIdx_perm (p : List ℚ) : List.Perm (argsortIdx p) (List.range p.length) :=
  List.mergeSort_perm _ _

lemma argsortIdx_length (p : List ℚ) : (argsortIdx p).length = p.length := by
  rw [(argsortIdx_perm p).length_eq, List.length_range]

lemma mem_argsortIdx (p : List ℚ) (i : ℕ) : i ∈ argsortIdx p ↔ i < p.length := by
  rw [(argsortIdx_perm p).mem_iff, List.mem_range]

lemma getD_map_range {α : Type} (n : ℕ) (f : ℕ → α) (d : α) (i : ℕ) (hi : i < n) :
    ((List.range n).map f).getD i d = f i := by
  rw [List.getD_eq_getElem _ _ (by simpa using hi), List.getElem_map, List.getElem_range]

lemma scatterBySortind_getD {α : Type} (si : List ℕ) (vals : List α) (d : α)
    (i : ℕ) (hi : i < si.length) :
    (scatterBySortind si vals d).getD i d = vals.getD (si.indexOf i) d :=
  getD_map_range _ _ _ _ hi

/-- C7: `apply_fdr_correction` is length- and order-preserving: both returned
arrays have the length of the input, and for every input position `i` there
is a sorted position `k` that the argsort maps back to `i`, with the `i`-th
corrected p-value and `i`-th reject flag equal to the values computed for the
`i`-th input's sorted copy, which is the `i`-th input p-value itself. -/
theorem apply_fdr_correction_spec (p : List ℚ) (alpha : ℚ) :
    (apply_fdr_correction p alpha).reject.length = p.length
    ∧ (apply_fdr_correction p alpha).pvals_corrected.length = p.length
    ∧ ∀ i, i < p.length →
        ∃ k, k < p.length
          ∧ (argsortIdx p).getD k 0 = i
          ∧ (apply_fdr_correction p alpha).pvals_corrected.getD i 0
              = (correctedSorted p).getD k 0
          ∧ (apply_fdr_correction p alpha).reject.getD i false
              = (rejectSorted p alpha).getD k false
          ∧ p.getD i 0 = (sortedPVals p).getD k 0 := by
  refine ⟨?_, ?_, ?_⟩
  · show (scatterBySortind (argsortIdx p) (rejectSorted p alpha) false).length = p.length
    simp [scatterBySortind, argsortIdx_length]
  · show (scatterBySortind (argsortIdx p) (correctedSorted p) 0).length = p.length
    simp [scatterBySortind, argsortIdx_length]
  · intro i hi
    have hmem : i ∈ argsortIdx p := (mem_argsortIdx p i).mpr hi
    have hki : (argsortIdx p).indexOf i < (argsortIdx p).length :=
      List.indexOf_lt_length.mpr hmem
    have hgot : (argsortIdx p).getD ((argsortIdx p).indexOf i) 0 = i := by
      rw [List.getD_eq_getElem _ _ hki, List.getElem_indexOf hki]
    refine ⟨(argsortIdx p).indexOf i, by rwa [argsortIdx_length] at hki, hgot, ?_, ?_, ?_⟩
    · show (scatterBySortind (argsortIdx p) (correctedSorted p) 0).getD i 0 = _
      rw [scatterBySortind_getD _ _ _ i (by rw [argsortIdx_length]; exact hi)]
    · show (scatterBySortind (argsortIdx p) (rejectSorted p alpha) false).getD i false = _
      rw [scatterBySortind_getD _ _ _ i (by rw [argsortIdx_length]; exact hi)]
    · have h2 : (sortedPVals p).getD ((argsortIdx p).indexOf i) 0
          = pAt p ((argsortIdx p).get ⟨(argsortIdx p).indexOf i, hki⟩) := by
        rw [sortedPVals]
        rw [List.getD_eq_getElem _ _ (by simpa using hki)]
        rw [List.getElem_map]
        rfl
      rw [h2]
      have h3 : (argsortIdx p).get ⟨(argsortIdx p).indexOf i, hki⟩ = i := List.indexOf_get hki
      rw [h3]
      rfl

/-- Witness for `apply_fdr_correction_spec`: its per-index correspondence at
the concrete p-value list `[1/100, 3/100]` and position 0. -/
theorem apply_fdr_correction_spec_witness :
    ∃ k, k < ([1 / 100, 3 / 100] : List ℚ).length
      ∧ (argsortIdx [1 / 100, 3 / 100]).getD k 0 = 0
      ∧ (apply_fdr_correction [1 / 100, 3 / 100] (1 / 20)).pvals_corrected.getD 0 0
          = (correctedSorted [1 / 100, 3 / 100]).getD k 0
      ∧ (apply_fdr_correction [1 / 100, 3 / 100] (1 / 20)).reject.getD 0 false
          = (rejectSorted [1 / 100, 3 / 100] (1 / 20)).getD k false
      ∧ ([1 / 100, 3 / 100] : List ℚ).getD 0 0 = (sortedPVals [1 / 100, 3 / 100]).getD k 0 :=
  (apply_fdr_correction_spec [1 / 100, 3 / 100] (1 / 20)).2.2 0 (by decide)

/-- C5: with both columns present, `correlation_test` fails with the
insufficient-data error exactly when fewer than 3 paired observations remain
after dropping rows missing in either variable; with enough observations an
unrecognized method name fails with the invalid-argument error carrying the
allowed set `spearman/pearson/kendall`; and on success, when either variable
is ordered-categorical, every text value in the corresponding vector handed
to the correlation routine has been replaced by its order-rank code (its
position in the declared category order). -/
theorem correlation_test_spec (df : DFrame) (var1 var2 method : String)
    (config : Option SurveyConfig)
    (h1 : df.hasCol (resolveVar config var1) = true)
    (h2 : df.hasCol (resolveVar config var2) = true) :
    ((pairedObs (df.getCol (resolveVar config var1))
        (df.getCol (resolveVar config var2))).length < 3 →
      correlation_test df var1 var2 method config
        = Except.error (StatsError.insufficientData
            (pairedObs (df.getCol (resolveVar config var1))
              (df.getCol (resolveVar config var2))).length))
    ∧ (3 ≤ (pairedObs (df.getCol (resolveVar config var1))
          (df.getCol (resolveVar config var2))).length →
        method ∉ allowedCorrMethods →
        correlation_test df var1 var2 method config
          = Except.error (StatsError.invalidMethod method allowedCorrMethods))
    ∧ ∀ res, correlation_test df var1 var2 method config = Except.ok res →
        res.n = (pairedObs (df.getCol (resolveVar config var1))
            (df.getCol (resolveVar config var2))).length
        ∧ 3 ≤ res.n
        ∧ method ∈ allowedCorrMethods
        ∧ res.method = method
        ∧ (∀ cats, df.orderedCats (resolveVar config var1) = some cats →
            ∀ k s, k < res.n →
              ((pairedObs (df.getCol (resolveVar config var1))
                  (df.getCol (resolveVar config var2))).map Prod.fst).getD k Cell.missing
                = Cell.text s →
              res.xs.getD k Cell.missing = Cell.num ((cats.indexOf s : ℕ) : ℚ))
        ∧ (∀ cats, df.orderedCats (resolveVar config var2) = some cats →
            ∀ k s, k < res.n →
              ((pairedObs (df.getCol (resolveVar config var1))
                  (df.getCol (resolveVar config var2))).map Prod.snd).getD k Cell.missing
                = Cell.text s →
              res.ys.getD k Cell.missing = Cell.num ((cats.indexOf s : ℕ) : ℚ)) := by
  rw [correlation_test]
  rw [if_pos h1, if_pos h2]
  refine ⟨?_, ?_, ?_⟩
  · intro hlt
    rw [if_pos hlt]
  · intro hge hmeth
    rw [if_neg (by omega)]
    rw [if_neg (by simpa using hmeth)]
  · intro res hres
    by_cases hlen : (pairedObs (df.getCol (resolveVar config var1))
        (df.getCol (resolveVar config var2))).length < 3
    · rw [if_pos hlen] at hres
      exact absurd hres (by simp)
    · rw [if_neg hlen] at hres
      by_cases hm : allowedCorrMethods.contains method
      · rw [if_pos hm] at hres
        have hres2 := Except.ok.inj hres
        subst hres2
        refine ⟨rfl, ?_, by simpa using hm, rfl, ?_, ?_⟩
        · show 3 ≤ (pairedObs (df.getCol (resolveVar config var1))
              (df.getCol (resolveVar config var2))).length
          omega
        · intro cats hcats k s hk hval
          show (codesIfOrdered df (resolveVar config var1)
              ((pairedObs (df.getCol (resolveVar config var1))
                (df.getCol (resolveVar config var2))).map Prod.fst)).getD k Cell.missing = _
          rw [codesIfOrdered, hcats]
          have hk2 : k < ((pairedObs (df.getCol (resolveVar config var1))
              (df.getCol (resolveVar config var2))).map Prod.fst).length := by
            simpa using hk
          rw [List.getD_eq_getElem _ _ (by simpa using hk2), List.getElem_map]
          rw [List.getD_eq_getElem _ _ hk2] at hval
          rw [hval]
          rfl
        · intro cats hcats k s hk hval
          show (codesIfOrdered df (resolveVar config var2)
              ((pairedObs (df.getCol (resolveVar config var1))
                (df.getCol (resolveVar config var2))).map Prod.snd)).getD k Cell.missing = _
          rw [codesIfOrdered, hcats]
          have hk2 : k < ((pairedObs (df.getCol (resolveVar config var1))
              (df.getCol (resolveVar config var2))).map Prod.snd).length := by
            simpa using hk
          rw [List.getD_eq_getElem _ _ (by simpa using hk2), List.getElem_map]
          rw [List.getD_eq_getElem _ _ hk2] at hval
          rw [hval]
          rfl
      · rw [if_neg hm] at hres
        exact absurd hres (by simp)

/-- Dataset for the C5 witness: an ordered-categorical column `o` and a
numeric column `n` with three complete rows. -/
def dfC5 : DFrame :=
  ⟨["o", "n"],
   [[Cell.text "low", Cell.num 1], [Cell.text "mid", Cell.num 2],
    [Cell.text "high", Cell.num 3]],
   [("o", ["low", "mid", "high"])]⟩

/-- Witness for `correlation_test_spec`: the invalid-method branch at the
concrete dataset `dfC5`. -/
theorem correlation_test_spec_witness :
    correlation_test dfC5 "o" "n" "bogus" none
      = Except.error (StatsError.invalidMethod "bogus" allowedCorrMethods) :=
  (correlation_test_spec dfC5 "o" "n" "bogus" none rfl rfl).2.1 (by decide) (by decide)

/-! ### Supporting lemmas: marginals of a crosstab-built count matrix -/

lemma sum_range_getD {α : Type} (l : List α) (f : α → ℚ) (d : α) :
    ∑ j ∈ Finset.range l.length, f (l.getD j d) = (l.map f).sum := by
  induction l with
  | nil => simp
  | cons x xs ih =>
    rw [List.length_cons, Finset.sum_range_succ']
    simp only [List.getD_cons_succ, List.getD_cons_zero, List.map_cons, List.sum_cons]
    rw [ih]
    ring

lemma crosstab_matEntry (xs ys : List Cell) (i j : ℕ)
    (hi : i < (crosstabCore xs ys).rowLabels.length)
    (hj : j < (crosstabCore xs ys).colLabels.length) :
    matEntry (crosstabCore xs ys).counts i j
      = ((countPair (pairedObs xs ys)
          ((crosstabCore xs ys).rowLabels.getD i Cell.missing)
          ((crosstabCore xs ys).colLabels.getD j Cell.missing) : ℕ) : ℚ) := by
  have hmi : i < ((crosstabCore xs ys).rowLabels.map (fun a =>
      (crosstabCore xs ys).colLabels.map fun b =>
        ((countPair (pairedObs xs ys) a b : ℕ) : ℚ))).length := by
    rw [List.length_map]
    exact hi
  rw [matEntry, crosstabCore_counts, List.getD_eq_getElem _ _ hmi, List.getElem_map]
  rw [List.getD_eq_getElem _ _ (by rw [List.length_map]; exact hj), List.getElem_map]
  rw [List.getD_eq_getElem _ _ hi, List.getD_eq_getElem _ _ hj]

lemma getD_nonneg (l : List ℚ) (h : ∀ x ∈ l, 0 ≤ x) (j : ℕ) : 0 ≤ l.getD j 0 := by
  by_cases hj : j < l.length
  · rw [List.getD_eq_getElem _ _ hj]
    exact h _ (List.getElem_mem hj)
  · rw [List.getD_eq_default _ _ (le_of_not_lt hj)]

lemma matEntry_nonneg (m : List (List ℚ)) (h : ∀ row ∈ m, ∀ x ∈ row, 0 ≤ x) (i j : ℕ) :
    0 ≤ matEntry m i j := by
  rw [matEntry]
  apply getD_nonneg
  intro x hx
  by_cases hi : i < m.length
  · rw [List.getD_eq_getElem _ _ hi] at hx
    exact h _ (List.getElem_mem hi) x hx
  · rw [List.getD_eq_default _ _ (le_of_not_lt hi)] at hx
    simp at hx

lemma crosstab_matEntry_nonneg (xs ys : List Cell) (i j : ℕ) :
    0 ≤ matEntry (crosstabCore xs ys).counts i j := by
  apply matEntry_nonneg
  intro row hrow x hx
  rw [crosstabCore_counts] at hrow
  obtain ⟨a, _, rfl⟩ := List.mem_map.mp hrow
  obtain ⟨b, _, rfl⟩ := List.mem_map.mp hx
  positivity

lemma crosstab_gRow (xs ys : List Cell) (i : ℕ)
    (hi : i < (crosstabCore xs ys).rowLabels.length) :
    gRow (matEntry (crosstabCore xs ys).counts) (crosstabCore xs ys).colLabels.length i
      = ((((pairedObs xs ys).filter fun p =>
          decide (p.1 = (crosstabCore xs ys).rowLabels.getD i Cell.missing)).length : ℕ) : ℚ) := by
  rw [gRow]
  rw [Finset.sum_congr rfl fun j hj =>
    crosstab_matEntry xs ys i j hi (Finset.mem_range.mp hj)]
  rw [sum_range_getD ((crosstabCore xs ys).colLabels)
    (fun b => ((countPair (pairedObs xs ys)
      ((crosstabCore xs ys).rowLabels.getD i Cell.missing) b : ℕ) : ℚ)) Cell.missing]
  exact crosstab_row_sum xs ys _

lemma crosstab_gRow_pos (xs ys : List Cell) (i : ℕ)
    (hi : i < (crosstabCore xs ys).rowLabels.length) :
    0 < gRow (matEntry (crosstabCore xs ys).counts)
        (crosstabCore xs ys).colLabels.length i := by
  rw [crosstab_gRow xs ys i hi]
  have hmem : (crosstabCore xs ys).rowLabels.getD i Cell.missing
      ∈ (crosstabCore xs ys).rowLabels := by
    rw [List.getD_eq_getElem _ _ hi]
    exact List.getElem_mem hi
  exact_mod_cast filter_fst_pos (mem_rowLabels_iff.mp hmem)

lemma crosstab_col_sum (xs ys : List Cell) (b : Cell) :
    ((crosstabCore xs ys).rowLabels.map
        fun a => ((countPair (pairedObs xs ys) a b : ℕ) : ℚ)).sum
      = ((((pairedObs xs ys).filter fun p => decide (p.2 = b)).length : ℕ) : ℚ) := by
  rw [sum_map_natCast]
  congr 1
  exact sum_counts_over_rows _ _ (nodup_rowLabels xs ys)
    (fun p hp => mem_rowLabels_iff.mpr (List.mem_map_of_mem Prod.fst hp)) b

lemma crosstab_gCol (xs ys : List Cell) (j : ℕ)
    (hj : j < (crosstabCore xs ys).colLabels.length) :
    gCol (matEntry (crosstabCore xs ys).counts) (crosstabCore xs ys).rowLabels.length j
      = ((((pairedObs xs ys).filter fun p =>
          decide (p.2 = (crosstabCore xs ys).colLabels.getD j Cell.missing)).length : ℕ) : ℚ) := by
  rw [gCol]
  rw [Finset.sum_congr rfl fun i hi =>
    crosstab_matEntry xs ys i j (Finset.mem_range.mp hi) hj]
  rw [sum_range_getD ((crosstabCore xs ys).rowLabels)
    (fun a => ((countPair (pairedObs xs ys) a
      ((crosstabCore xs ys).colLabels.getD j Cell.missing) : ℕ) : ℚ)) Cell.missing]
  exact crosstab_col_sum xs ys _

lemma crosstab_gCol_pos (xs ys : List Cell) (j : ℕ)
    (hj : j < (crosstabCore xs ys).colLabels.length) :
    0 < gCol (matEntry (crosstabCore xs ys).counts)
        (crosstabCore xs ys).rowLabels.length j := by
  rw [crosstab_gCol xs ys j hj]
  have hmem : (crosstabCore xs ys).colLabels.getD j Cell.missing
      ∈ (crosstabCore xs ys).colLabels := by
    rw [List.getD_eq_getElem _ _ hj]
    exact List.getElem_mem hj
  exact_mod_cast filter_snd_pos (mem_colLabels_iff.mp hmem)

lemma crosstab_gTot (xs ys : List Cell) :
    gTot (matEntry (crosstabCore xs ys).counts) (crosstabCore xs ys).rowLabels.length
        (crosstabCore xs ys).colLabels.length
      = (((pairedObs xs ys).length : ℕ) : ℚ) := by
  rw [gTot]
  rw [Finset.sum_congr rfl fun i hi => crosstab_gRow xs ys i (Finset.mem_range.mp hi)]
  rw [sum_range_getD ((crosstabCore xs ys).rowLabels)
    (fun a => ((((pairedObs xs ys).filter fun p => decide (p.1 = a)).length : ℕ) : ℚ))
    Cell.missing]
  rw [sum_map_natCast]
  congr 1
  rw [← List.sum_toFinset _ (nodup_rowLabels xs ys)]
  exact sum_length_filter_key (pairedObs xs ys) Prod.fst _
    fun p hp => List.mem_toFinset.mpr (mem_rowLabels_iff.mpr (List.mem_map_of_mem Prod.fst hp))

lemma crosstab_counts_total (xs ys : List Cell) :
    ((crosstabCore xs ys).counts.map List.sum).sum
      = (((pairedObs xs ys).length : ℕ) : ℚ) := by
  rw [crosstabCore_counts, List.map_map]
  have hcong : (List.sum ∘ fun a => (crosstabCore xs ys).colLabels.map
      fun b => ((countPair (pairedObs xs ys) a b : ℕ) : ℚ))
        = fun a => ((((pairedObs xs ys).filter
            fun p => decide (p.1 = a)).length : ℕ) : ℚ) := by
    funext a
    exact crosstab_row_sum xs ys a
  rw [hcong, sum_map_natCast]
  congr 1
  rw [← List.sum_toFinset _ (nodup_rowLabels xs ys)]
  exact sum_length_filter_key (pairedObs xs ys) Prod.fst _
    fun p hp => List.mem_toFinset.mpr (mem_rowLabels_iff.mpr (List.mem_map_of_mem Prod.fst hp))

/-! ### Supporting lemmas: bounds on the chi-square statistic -/

lemma gTot_pos (g : ℕ → ℕ → ℚ) (r c : ℕ) (hr : 0 < r)
    (hR : ∀ i, i < r → 0 < gRow g c i) : 0 < gTot g r c := by
  rw [gTot]
  exact Finset.sum_pos (fun i hi => hR i (Finset.mem_range.mp hi))
    ⟨0, Finset.mem_range.mpr hr⟩

lemma sum_gCol (g : ℕ → ℕ → ℚ) (r c : ℕ) :
    ∑ j ∈ Finset.range c, gCol g r j = gTot g r c := by
  rw [gTot]
  simp only [gRow, gCol]
  exact Finset.sum_comm

lemma gPearson_le (g : ℕ → ℕ → ℚ) (r c : ℕ)
    (hg : ∀ i j, 0 ≤ g i j)
    (hR : ∀ i, i < r → 0 < gRow g c i)
    (hC : ∀ j, j < c → 0 < gCol g r j)
    (hr : 0 < r) :
    gPearson g r c ≤ gTot g r c * ((r : ℚ) - 1) := by
  have hn : 0 < gTot g r c := gTot_pos g r c hr hR
  have hE : ∀ i, i < r → ∀ j, j < c → 0 < gExp g r c i j := fun i hi j hj =>
    div_pos (mul_pos (hR i hi) (hC j hj)) hn
  have hterm : ∀ i ∈ Finset.range r, ∀ j ∈ Finset.range c,
      (g i j - gExp g r c i j) ^ 2 / gExp g r c i j
        = g i j ^ 2 / gExp g r c i j - 2 * g i j + gExp g r c i j := by
    intro i hi j hj
    have hEp := hE i (Finset.mem_range.mp hi) j (Finset.mem_range.mp hj)
    field_simp
    ring
  have hsumg : ∑ i ∈ Finset.range r, ∑ j ∈ Finset.range c, g i j = gTot g r c := rfl
  have hsumE : ∑ i ∈ Finset.range r, ∑ j ∈ Finset.range c, gExp g r c i j
      = gTot g r c := by
    have hinner : ∀ i ∈ Finset.range r,
        ∑ j ∈ Finset.range c, gExp g r c i j = gRow g c i := by
      intro i _
      simp only [gExp]
      rw [← Finset.sum_div, ← Finset.mul_sum, sum_gCol]
      field_simp
    rw [Finset.sum_congr rfl hinner]
    rfl
  have hsplit : gPearson g r c
      = (∑ i ∈ Finset.range r, ∑ j ∈ Finset.range c, g i j ^ 2 / gExp g r c i j)
        - 2 * gTot g r c + gTot g r c := by
    rw [gPearson]
    rw [Finset.sum_congr rfl fun i hi => Finset.sum_congr rfl fun j hj => hterm i hi j hj]
    simp only [Finset.sum_add_distrib, Finset.sum_sub_distrib, ← Finset.mul_sum]
    rw [hsumg, hsumE]
  have hbound : ∀ i ∈ Finset.range r,
      ∑ j ∈ Finset.range c, g i j ^ 2 / gExp g r c i j ≤ gTot g r c := by
    intro i hi
    have hRi := hR i (Finset.mem_range.mp hi)
    have hterm2 : ∀ j ∈ Finset.range c,
        g i j ^ 2 / gExp g r c i j ≤ g i j * gTot g r c / gRow g c i := by
      intro j hj
      have hCj := hC j (Finset.mem_range.mp hj)
      have hgj : g i j ≤ gCol g r j := by
        rw [gCol]
        exact Finset.single_le_sum (f := fun k => g k j) (fun k _ => hg k j) hi
      rw [gExp, div_div_eq_mul_div]
      rw [div_le_div_iff (by positivity) hRi]
      nlinarith [mul_le_mul_of_nonneg_left hgj
        (mul_nonneg (mul_nonneg (hg i j) hn.le) hRi.le)]
    calc ∑ j ∈ Finset.range c, g i j ^ 2 / gExp g r c i j
        ≤ ∑ j ∈ Finset.range c, g i j * gTot g r c / gRow g c i :=
          Finset.sum_le_sum hterm2
      _ = (∑ j ∈ Finset.range c, g i j) * gTot g r c / gRow g c i := by
          rw [← Finset.sum_div, ← Finset.sum_mul]
      _ = gRow g c i * gTot g r c / gRow g c i := rfl
      _ = gTot g r c := by
          field_simp
  have hsum1 : ∑ i ∈ Finset.range r, ∑ j ∈ Finset.range c, g i j ^ 2 / gExp g r c i j
      ≤ (r : ℚ) * gTot g r c := by
    calc ∑ i ∈ Finset.range r, ∑ j ∈ Finset.range c, g i j ^ 2 / gExp g r c i j
        ≤ ∑ _i ∈ Finset.range r, gTot g r c := Finset.sum_le_sum hbound
      _ = (r : ℚ) * gTot g r c := by
          rw [Finset.sum_const, Finset.card_range, nsmul_eq_mul]
  rw [hsplit]
  nlinarith [hsum1]

lemma gRowFlip (g : ℕ → ℕ → ℚ) (r j : ℕ) :
    gRow (fun a b => g b a) r j = gCol g r j := rfl

lemma gColFlip (g : ℕ → ℕ → ℚ) (c i : ℕ) :
    gCol (fun a b => g b a) c i = gRow g c i := rfl

lemma gTotFlip (g : ℕ → ℕ → ℚ) (r c : ℕ) :
    gTot (fun a b => g b a) c r = gTot g r c := by
  rw [gTot, gTot]
  simp only [gRow]
  exact Finset.sum_comm

lemma gExpFlip (g : ℕ → ℕ → ℚ) (r c i j : ℕ) :
    gExp (fun a b => g b a) c r i j = gExp g r c j i := by
  rw [gExp, gExp]
  rw [gTotFlip g r c]
  rw [show gRow (fun a b => g b a) r i = gCol g r i from rfl]
  rw [show gCol (fun a b => g b a) c j = gRow g c j from rfl]
  ring

lemma gPearsonFlip (g : ℕ → ℕ → ℚ) (r c : ℕ) :
    gPearson (fun a b => g b a) c r = gPearson g r c := by
  rw [gPearson, gPearson]
  rw [Finset.sum_comm]
  exact Finset.sum_congr rfl fun i _ => Finset.sum_congr rfl fun j _ => by
    rw [gExpFlip g r c]

lemma gPearson_nonneg (g : ℕ → ℕ → ℚ) (r c : ℕ)
    (hE : ∀ i, i < r → ∀ j, j < c → 0 < gExp g r c i j) : 0 ≤ gPearson g r c := by
  rw [gPearson]
  apply Finset.sum_nonneg
  intro i hi
  apply Finset.sum_nonneg
  intro j hj
  exact div_nonneg (sq_nonneg _)
    (hE i (Finset.mem_range.mp hi) j (Finset.mem_range.mp hj)).le

lemma yatesTerm_nonneg (o e : ℚ) (he : 0 < e) : 0 ≤ yatesTerm o e := by
  rw [yatesTerm]
  by_cases h : o = e
  · rw [if_pos h]
  · rw [if_neg h]
    positivity

lemma gYates_nonneg (g : ℕ → ℕ → ℚ) (r c : ℕ)
    (hE : ∀ i, i < r → ∀ j, j < c → 0 < gExp g r c i j) : 0 ≤ gYates g r c := by
  rw [gYates]
  apply Finset.sum_nonneg
  intro i hi
  apply Finset.sum_nonneg
  intro j hj
  exact yatesTerm_nonneg _ _ (hE i (Finset.mem_range.mp hi) j (Finset.mem_range.mp hj))

/-- Collect the four corrected cell contributions over a common numerator. -/
lemma four_term_sum (x n R0 R1 C0 C1 : ℚ) (hn : n ≠ 0) (h0 : R0 ≠ 0) (h1 : R1 ≠ 0)
    (hc0 : C0 ≠ 0) (hc1 : C1 ≠ 0) :
    x / (R0 * C0 / n) + x / (R0 * C1 / n) + (x / (R1 * C0 / n) + x / (R1 * C1 / n))
      = x * n * ((R0 + R1) * (C0 + C1)) / (R0 * R1 * (C0 * C1)) := by
  field_simp
  ring

/-- Final reduction of the collected Yates statistic to the margin product
bound. -/
lemma yates_final (K n P : ℚ) (hn : 0 < n) (hP : 0 < P) (hK : 0 ≤ K)
    (hmain : (2 * K - n) ^ 2 ≤ 4 * P) :
    (K / n - 1 / 2) ^ 2 * n * (n * n) / P ≤ n := by
  have h1 : (K / n - 1 / 2) ^ 2 * n * (n * n) / P = (2 * K - n) ^ 2 * (n / (4 * P)) := by
    field_simp
    ring
  rw [h1]
  calc (2 * K - n) ^ 2 * (n / (4 * P))
      ≤ (4 * P) * (n / (4 * P)) := mul_le_mul_of_nonneg_right hmain (by positivity)
    _ = n := by field_simp

set_option maxHeartbeats 1000000 in
/-- Core estimate for the Yates-corrected statistic of a 2×2 table with cells
`a b / u v` whose margins are all at least 1 (integer counts of a
crosstab-built table): the corrected statistic is at most the grand total. -/
lemma yates_cell_bound (a b u v : ℚ) (ha : 0 ≤ a) (hb : 0 ≤ b) (hu : 0 ≤ u) (hv : 0 ≤ v)
    (hr0 : 1 ≤ a + b) (hr1 : 1 ≤ u + v) (hc0 : 1 ≤ a + u) (hc1 : 1 ≤ b + v) :
    yatesTerm a ((a + b) * (a + u) / (a + b + (u + v)))
      + yatesTerm b ((a + b) * (b + v) / (a + b + (u + v)))
      + (yatesTerm u ((u + v) * (a + u) / (a + b + (u + v)))
        + yatesTerm v ((u + v) * (b + v) / (a + b + (u + v))))
    ≤ a + b + (u + v) := by
  have hn : (0 : ℚ) < a + b + (u + v) := by linarith
  have hr0p : (0 : ℚ) < a + b := by linarith
  have hr1p : (0 : ℚ) < u + v := by linarith
  have hc0p : (0 : ℚ) < a + u := by linarith
  have hc1p : (0 : ℚ) < b + v := by linarith
  by_cases hD : a * v - b * u = 0
  · have h00 : a = (a + b) * (a + u) / (a + b + (u + v)) := by
      rw [eq_div_iff hn.ne']
      linear_combination hD
    have h01 : b = (a + b) * (b + v) / (a + b + (u + v)) := by
      rw [eq_div_iff hn.ne']
      linear_combination -hD
    have h10 : u = (u + v) * (a + u) / (a + b + (u + v)) := by
      rw [eq_div_iff hn.ne']
      linear_combination -hD
    have h11 : v = (u + v) * (b + v) / (a + b + (u + v)) := by
      rw [eq_div_iff hn.ne']
      linear_combination hD
    simp only [yatesTerm]
    rw [if_pos h00, if_pos h01, if_pos h10, if_pos h11]
    linarith
  · have h00n : ¬ a = (a + b) * (a + u) / (a + b + (u + v)) := by
      intro heq
      rw [eq_div_iff hn.ne'] at heq
      exact hD (by linear_combination heq)
    have h01n : ¬ b = (a + b) * (b + v) / (a + b + (u + v)) := by
      intro heq
      rw [eq_div_iff hn.ne'] at heq
      exact hD (by linear_combination -heq)
    have h10n : ¬ u = (u + v) * (a + u) / (a + b + (u + v)) := by
      intro heq
      rw [eq_div_iff hn.ne'] at heq
      exact hD (by linear_combination -heq)
    have h11n : ¬ v = (u + v) * (b + v) / (a + b + (u + v)) := by
      intro heq
      rw [eq_div_iff hn.ne'] at heq
      exact hD (by linear_combination heq)
    have hd00 : a - (a + b) * (a + u) / (a + b + (u + v))
        = (a * v - b * u) / (a + b + (u + v)) := by
      field_simp
      ring
    have hd01 : b - (a + b) * (b + v) / (a + b + (u + v))
        = -(a * v - b * u) / (a + b + (u + v)) := by
      field_simp
      ring
    have hd10 : u - (u + v) * (a + u) / (a + b + (u + v))
        = -(a * v - b * u) / (a + b + (u + v)) := by
      field_simp
      ring
    have hd11 : v - (u + v) * (b + v) / (a + b + (u + v))
        = (a * v - b * u) / (a + b + (u + v)) := by
      field_simp
      ring
    have e00 : |a - (a + b) * (a + u) / (a + b + (u + v))|
        = |a * v - b * u| / (a + b + (u + v)) := by
      rw [hd00, abs_div, abs_of_pos hn]
    have e01 : |b - (a + b) * (b + v) / (a + b + (u + v))|
        = |a * v - b * u| / (a + b + (u + v)) := by
      rw [hd01, abs_div, abs_of_pos hn, abs_neg]
    have e10 : |u - (u + v) * (a + u) / (a + b + (u + v))|
        = |a * v - b * u| / (a + b + (u + v)) := by
      rw [hd10, abs_div, abs_of_pos hn, abs_neg]
    have e11 : |v - (u + v) * (b + v) / (a + b + (u + v))|
        = |a * v - b * u| / (a + b + (u + v)) := by
      rw [hd11, abs_div, abs_of_pos hn]
    have hK2 : |a * v - b * u| ^ 2 = (a * v - b * u) ^ 2 := sq_abs _
    have hmain : (2 * |a * v - b * u| - (a + b + (u + v))) ^ 2
        ≤ 4 * ((a + b) * (u + v) * ((a + u) * (b + v))) := by
      rcases le_or_lt (a + b + (u + v)) (2 * |a * v - b * u|) with hcase | hcase
      · have h1 : (2 * |a * v - b * u| - (a + b + (u + v))) ^ 2
            ≤ (2 * |a * v - b * u|) ^ 2 :=
          pow_le_pow_left (by linarith) (by linarith) 2
        have h2 : (2 * |a * v - b * u|) ^ 2 = 4 * (a * v - b * u) ^ 2 := by
          rw [show (2 * |a * v - b * u|) ^ 2 = 4 * |a * v - b * u| ^ 2 from by ring, hK2]
        have key : (a + b) * (u + v) * ((a + u) * (b + v))
            = (a * v - b * u) ^ 2
              + ((a * v + b * u) * (a * b + u * v + a * u + b * v)
                + (a * u + b * v) * (a * b + u * v) + 4 * (a * b) * (u * v)) := by
          ring
        have n1 : 0 ≤ (a * v + b * u) * (a * b + u * v + a * u + b * v) := by positivity
        have n2 : 0 ≤ (a * u + b * v) * (a * b + u * v) := by positivity
        have n3 : 0 ≤ 4 * (a * b) * (u * v) := by positivity
        linarith [h1, h2, key, n1, n2, n3]
      · have hKnn : (0 : ℚ) ≤ |a * v - b * u| := abs_nonneg _
        have h1 : (2 * |a * v - b * u| - (a + b + (u + v))) ^ 2
            = ((a + b + (u + v)) - 2 * |a * v - b * u|) ^ 2 := by
          ring
        have h2 : ((a + b + (u + v)) - 2 * |a * v - b * u|) ^ 2
            ≤ (a + b + (u + v)) ^ 2 :=
          pow_le_pow_left (by linarith) (by linarith) 2
        have hRR : a + b + (u + v) - 1 ≤ (a + b) * (u + v) := by
          nlinarith [mul_nonneg (by linarith : (0 : ℚ) ≤ a + b - 1)
            (by linarith : (0 : ℚ) ≤ u + v - 1)]
        have hCC : a + b + (u + v) - 1 ≤ (a + u) * (b + v) := by
          nlinarith [mul_nonneg (by linarith : (0 : ℚ) ≤ a + u - 1)
            (by linarith : (0 : ℚ) ≤ b + v - 1)]
        have hn2 : (2 : ℚ) ≤ a + b + (u + v) := by linarith
        have hprod : (a + b + (u + v) - 1) * (a + b + (u + v) - 1)
            ≤ (a + b) * (u + v) * ((a + u) * (b + v)) :=
          mul_le_mul hRR hCC (by linarith) (by positivity)
        have h3 : (0 : ℚ) ≤ (a + b + (u + v) - 2) * (3 * (a + b + (u + v)) - 2) :=
          mul_nonneg (by linarith) (by linarith)
        nlinarith [h1, h2, hprod, h3]
    simp only [yatesTerm]
    rw [if_neg h00n, if_neg h01n, if_neg h10n, if_neg h11n]
    rw [e00, e01, e10, e11]
    rw [four_term_sum ((|a * v - b * u| / (a + b + (u + v)) - 1 / 2) ^ 2)
      (a + b + (u + v)) (a + b) (u + v) (a + u) (b + v)
      hn.ne' hr0p.ne' hr1p.ne' hc0p.ne' hc1p.ne']
    rw [show a + u + (b + v) = a + b + (u + v) from by ring]
    exact yates_final _ _ _ hn (by positivity) (abs_nonneg _) hmain

/-- A 2×2 table with all margins at least 1 keeps its Yates-corrected
statistic below the grand total. -/
lemma gYates_le_two (g : ℕ → ℕ → ℚ) (hg : ∀ i j, 0 ≤ g i j)
    (hR : ∀ i, i < 2 → 1 ≤ gRow g 2 i) (hC : ∀ j, j < 2 → 1 ≤ gCol g 2 j) :
    gYates g 2 2 ≤ gTot g 2 2 := by
  have hR0 : gRow g 2 0 = g 0 0 + g 0 1 := by
    simp [gRow, Finset.sum_range_succ]
  have hR1 : gRow g 2 1 = g 1 0 + g 1 1 := by
    simp [gRow, Finset.sum_range_succ]
  have hC0 : gCol g 2 0 = g 0 0 + g 1 0 := by
    simp [gCol, Finset.sum_range_succ]
  have hC1 : gCol g 2 1 = g 0 1 + g 1 1 := by
    simp [gCol, Finset.sum_range_succ]
  have hT : gTot g 2 2 = g 0 0 + g 0 1 + (g 1 0 + g 1 1) := by
    rw [gTot, Finset.sum_range_succ, Finset.sum_range_succ, Finset.sum_range_zero,
      zero_add, hR0, hR1]
  have hE00 : gExp g 2 2 0 0
      = (g 0 0 + g 0 1) * (g 0 0 + g 1 0) / (g 0 0 + g 0 1 + (g 1 0 + g 1 1)) := by
    rw [gExp, hR0, hC0, hT]
  have hE01 : gExp g 2 2 0 1
      = (g 0 0 + g 0 1) * (g 0 1 + g 1 1) / (g 0 0 + g 0 1 + (g 1 0 + g 1 1)) := by
    rw [gExp, hR0, hC1, hT]
  have hE10 : gExp g 2 2 1 0
      = (g 1 0 + g 1 1) * (g 0 0 + g 1 0) / (g 0 0 + g 0 1 + (g 1 0 + g 1 1)) := by
    rw [gExp, hR1, hC0, hT]
  have hE11 : gExp g 2 2 1 1
      = (g 1 0 + g 1 1) * (g 0 1 + g 1 1) / (g 0 0 + g 0 1 + (g 1 0 + g 1 1)) := by
    rw [gExp, hR1, hC1, hT]
  have hY : gYates g 2 2
      = yatesTerm (g 0 0) (gExp g 2 2 0 0) + yatesTerm (g 0 1) (gExp g 2 2 0 1)
        + (yatesTerm (g 1 0) (gExp g 2 2 1 0) + yatesTerm (g 1 1) (gExp g 2 2 1 1)) := by
    rw [gYates]
    rw [Finset.sum_range_succ, Finset.sum_range_succ, Finset.sum_range_zero, zero_add]
    rw [Finset.sum_range_succ, Finset.sum_range_succ, Finset.sum_range_zero, zero_add]
    rw [Finset.sum_range_succ, Finset.sum_range_succ, Finset.sum_range_zero, zero_add]
  rw [hY, hE00, hE01, hE10, hE11, hT]
  exact yates_cell_bound (g 0 0) (g 0 1) (g 1 0) (g 1 1)
    (hg 0 0) (hg 0 1) (hg 1 0) (hg 1 1)
    (by rw [← hR0]; exact hR 0 (by norm_num))
    (by rw [← hR1]; exact hR 1 (by norm_num))
    (by rw [← hC0]; exact hC 0 (by norm_num))
    (by rw [← hC1]; exact hC 1 (by norm_num))

/-- The statistic field of `chi2_contingency`, written out. -/
lemma chi2_contingency_chi2 (m : List (List ℚ)) (r c : ℕ) (correction : Bool) :
    (chi2_contingency m r c correction).chi2
      = if correction = true ∧ (r - 1) * (c - 1) = 1
        then gYates (matEntry m) r c else gPearson (matEntry m) r c := rfl

/-- The chi-square statistic computed by `chi2_contingency` (with scipy's
default continuity correction) on a crosstab with at least two categories per
dimension is at most `N * min (r - 1) (c - 1)`. -/
lemma crosstab_chi2_le (xs ys : List Cell)
    (hr2 : 2 ≤ (crosstabCore xs ys).rowLabels.length)
    (hc2 : 2 ≤ (crosstabCore xs ys).colLabels.length) :
    (chi2_contingency (crosstabCore xs ys).counts
        (crosstabCore xs ys).rowLabels.length
        (crosstabCore xs ys).colLabels.length true).chi2
      ≤ ((pairedObs xs ys).length : ℚ)
        * ((min ((crosstabCore xs ys).rowLabels.length - 1)
            ((crosstabCore xs ys).colLabels.length - 1) : ℕ) : ℚ) := by
  have hg : ∀ i j, 0 ≤ matEntry (crosstabCore xs ys).counts i j :=
    crosstab_matEntry_nonneg xs ys
  have hR : ∀ i, i < (crosstabCore xs ys).rowLabels.length →
      0 < gRow (matEntry (crosstabCore xs ys).counts)
        (crosstabCore xs ys).colLabels.length i :=
    fun i hi => crosstab_gRow_pos xs ys i hi
  have hC : ∀ j, j < (crosstabCore xs ys).colLabels.length →
      0 < gCol (matEntry (crosstabCore xs ys).counts)
        (crosstabCore xs ys).rowLabels.length j :=
    fun j hj => crosstab_gCol_pos xs ys j hj
  have hR1 : ∀ i, i < (crosstabCore xs ys).rowLabels.length →
      1 ≤ gRow (matEntry (crosstabCore xs ys).counts)
        (crosstabCore xs ys).colLabels.length i := by
    intro i hi
    rw [crosstab_gRow xs ys i hi]
    have hp : 0 < ((pairedObs xs ys).filter fun p =>
        decide (p.1 = (crosstabCore xs ys).rowLabels.getD i Cell.missing)).length := by
      apply filter_fst_pos
      apply mem_rowLabels_iff.mp
      rw [List.getD_eq_getElem _ _ hi]
      exact List.getElem_mem hi
    exact_mod_cast hp
  have hC1 : ∀ j, j < (crosstabCore xs ys).colLabels.length →
      1 ≤ gCol (matEntry (crosstabCore xs ys).counts)
        (crosstabCore xs ys).rowLabels.length j := by
    intro j hj
    rw [crosstab_gCol xs ys j hj]
    have hp : 0 < ((pairedObs xs ys).filter fun p =>
        decide (p.2 = (crosstabCore xs ys).colLabels.getD j Cell.missing)).length := by
      apply filter_snd_pos
      apply mem_colLabels_iff.mp
      rw [List.getD_eq_getElem _ _ hj]
      exact List.getElem_mem hj
    exact_mod_cast hp
  have hN : gTot (matEntry (crosstabCore xs ys).counts)
      (crosstabCore xs ys).rowLabels.length (crosstabCore xs ys).colLabels.length
      = ((pairedObs xs ys).length : ℚ) := crosstab_gTot xs ys
  rw [chi2_contingency_chi2]
  generalize hgg : matEntry (crosstabCore xs ys).counts = g at hg hR hR1 hC hC1 hN ⊢
  generalize hrr : (crosstabCore xs ys).rowLabels.length = r at hr2 hR hR1 hC hC1 hN ⊢
  generalize hcc : (crosstabCore xs ys).colLabels.length = c at hc2 hR hR1 hC hC1 hN ⊢
  by_cases hdof : (r - 1) * (c - 1) = 1
  · rw [if_pos ⟨rfl, hdof⟩]
    have hre : r = 2 := by
      have := Nat.eq_one_of_mul_eq_one_right hdof
      omega
    have hce : c = 2 := by
      have := Nat.eq_one_of_mul_eq_one_left hdof
      omega
    subst hre hce
    have hone : ((min (2 - 1) (2 - 1) : ℕ) : ℚ) = 1 := by norm_num
    rw [hone, mul_one, ← hN]
    exact gYates_le_two g hg hR1 hC1
  · rw [if_neg fun h => hdof h.2]
    have hP1 : gPearson g r c ≤ gTot g r c * ((r : ℚ) - 1) :=
      gPearson_le g r c hg hR hC (by omega)
    have hP2 : gPearson g r c ≤ gTot g r c * ((c : ℚ) - 1) := by
      rw [← gPearsonFlip g r c, ← gTotFlip g r c]
      exact gPearson_le (fun a b => g b a) c r (fun i j => hg j i)
        (fun i hi => hC i hi) (fun j hj => hR j hj) (by omega)
    rcases le_total (r - 1) (c - 1) with hmin | hmin
    · rw [min_eq_left hmin, Nat.cast_sub (by omega : 1 ≤ r), Nat.cast_one, ← hN]
      exact hP1
    · rw [min_eq_right hmin, Nat.cast_sub (by omega : 1 ≤ c), Nat.cast_one, ← hN]
      exact hP2

/-- Field-level description of the successful return of `chi_square_test`. -/
lemma chi_square_test_ok_fields (df : DFrame) (var1 var2 : String)
    (cfg : Option SurveyConfig)
    (h1 : df.hasCol (resolveVar cfg var1) = true)
    (h2 : df.hasCol (resolveVar cfg var2) = true)
    (hdeg : ¬((crosstabCore (df.getCol (resolveVar cfg var1))
          (df.getCol (resolveVar cfg var2))).rowLabels.length < 2
        ∨ (crosstabCore (df.getCol (resolveVar cfg var1))
            (df.getCol (resolveVar cfg var2))).colLabels.length < 2))
    (res : ChiSquareResult)
    (hok : chi_square_test df var1 var2 cfg = Except.ok res) :
    res.chi2 = (chi2_contingency (crosstabCore (df.getCol (resolveVar cfg var1))
          (df.getCol (resolveVar cfg var2))).counts
        (crosstabCore (df.getCol (resolveVar cfg var1))
          (df.getCol (resolveVar cfg var2))).rowLabels.length
        (crosstabCore (df.getCol (resolveVar cfg var1))
          (df.getCol (resolveVar cfg var2))).colLabels.length true).chi2
    ∧ res.cramersVSq
        = if 0 < min ((crosstabCore (df.getCol (resolveVar cfg var1))
              (df.getCol (resolveVar cfg var2))).rowLabels.length - 1)
            ((crosstabCore (df.getCol (resolveVar cfg var1))
              (df.getCol (resolveVar cfg var2))).colLabels.length - 1)
          then (chi2_contingency (crosstabCore (df.getCol (resolveVar cfg var1))
                (df.getCol (resolveVar cfg var2))).counts
              (crosstabCore (df.getCol (resolveVar cfg var1))
                (df.getCol (resolveVar cfg var2))).rowLabels.length
              (crosstabCore (df.getCol (resolveVar cfg var1))
                (df.getCol (resolveVar cfg var2))).colLabels.length true).chi2
            / (((crosstabCore (df.getCol (resolveVar cfg var1))
                  (df.getCol (resolveVar cfg var2))).counts.map List.sum).sum
              * ((min ((crosstabCore (df.getCol (resolveVar cfg var1))
                    (df.getCol (resolveVar cfg var2))).rowLabels.length - 1)
                  ((crosstabCore (df.getCol (resolveVar cfg var1))
                    (df.getCol (resolveVar cfg var2))).colLabels.length - 1) : ℕ) : ℚ))
          else 0 := by
  rw [chi_square_test, if_pos h1, if_pos h2, if_neg hdeg] at hok
  have hres := Except.ok.inj hok
  constructor
  · rw [← hres]
  · rw [← hres]

set_option maxHeartbeats 800000 in
/-- C3: for existing columns, `chi_square_test` fails with the
insufficient-data error (`tableTooSmall`) exactly when either dimension of the
margin-free contingency table has fewer than two distinct categories; on
success the stored Cramér's V radicand equals
`chi2 / (N * min (rows - 1) (cols - 1))` over the `N` paired observations,
and its square root — the reported `cramers_v` — lies in `[0, 1]`. -/
theorem chi_square_test_spec (df : DFrame) (var1 var2 : String)
    (cfg : Option SurveyConfig)
    (h1 : df.hasCol (resolveVar cfg var1) = true)
    (h2 : df.hasCol (resolveVar cfg var2) = true) :
    ((chi_square_test df var1 var2 cfg
        = Except.error (StatsError.tableTooSmall var1 var2))
      ↔ ((crosstabCore (df.getCol (resolveVar cfg var1))
            (df.getCol (resolveVar cfg var2))).rowLabels.length < 2
          ∨ (crosstabCore (df.getCol (resolveVar cfg var1))
              (df.getCol (resolveVar cfg var2))).colLabels.length < 2))
    ∧ (∀ res : ChiSquareResult, chi_square_test df var1 var2 cfg = Except.ok res →
        res.cramersVSq = res.chi2
            / (((pairedObs (df.getCol (resolveVar cfg var1))
                  (df.getCol (resolveVar cfg var2))).length : ℚ)
              * ((min ((crosstabCore (df.getCol (resolveVar cfg var1))
                    (df.getCol (resolveVar cfg var2))).rowLabels.length - 1)
                  ((crosstabCore (df.getCol (resolveVar cfg var1))
                    (df.getCol (resolveVar cfg var2))).colLabels.length - 1) : ℕ) : ℚ))
          ∧ 0 ≤ Real.sqrt (res.cramersVSq : ℝ)
          ∧ Real.sqrt (res.cramersVSq : ℝ) ≤ 1) := by
  by_cases hdeg : (crosstabCore (df.getCol (resolveVar cfg var1))
        (df.getCol (resolveVar cfg var2))).rowLabels.length < 2
      ∨ (crosstabCore (df.getCol (resolveVar cfg var1))
          (df.getCol (resolveVar cfg var2))).colLabels.length < 2
  · have heq : chi_square_test df var1 var2 cfg
        = Except.error (StatsError.tableTooSmall var1 var2) := by
      rw [chi_square_test, if_pos h1, if_pos h2, if_pos hdeg]
    refine ⟨⟨fun _ => hdeg, fun _ => heq⟩, fun res hok => ?_⟩
    rw [heq] at hok
    exact absurd hok (by simp)
  · have hr2 : 2 ≤ (crosstabCore (df.getCol (resolveVar cfg var1))
        (df.getCol (resolveVar cfg var2))).rowLabels.length := by omega
    have hc2 : 2 ≤ (crosstabCore (df.getCol (resolveVar cfg var1))
        (df.getCol (resolveVar cfg var2))).colLabels.length := by omega
    have hminpos : 0 < min ((crosstabCore (df.getCol (resolveVar cfg var1))
          (df.getCol (resolveVar cfg var2))).rowLabels.length - 1)
        ((crosstabCore (df.getCol (resolveVar cfg var1))
          (df.getCol (resolveVar cfg var2))).colLabels.length - 1) := by omega
    refine ⟨⟨fun h => ?_, fun h => (hdeg h).elim⟩, fun res hok => ?_⟩
    · rw [chi_square_test, if_pos h1, if_pos h2, if_neg hdeg] at h
      simp at h
    · obtain ⟨hchi, hv⟩ :=
        chi_square_test_ok_fields df var1 var2 cfg h1 h2 hdeg res hok
      have hne : pairedObs (df.getCol (resolveVar cfg var1))
          (df.getCol (resolveVar cfg var2)) ≠ [] := by
        intro h0
        have h2' := hr2
        rw [crosstabCore_rowLabels, h0] at h2'
        simp at h2'
      have hNpos : (0 : ℚ) < ((pairedObs (df.getCol (resolveVar cfg var1))
          (df.getCol (resolveVar cfg var2))).length : ℚ) := by
        exact_mod_cast List.length_pos.mpr hne
      have hmq : (0 : ℚ) < ((min ((crosstabCore (df.getCol (resolveVar cfg var1))
            (df.getCol (resolveVar cfg var2))).rowLabels.length - 1)
          ((crosstabCore (df.getCol (resolveVar cfg var1))
            (df.getCol (resolveVar cfg var2))).colLabels.length - 1) : ℕ) : ℚ) := by
        exact_mod_cast hminpos
      rw [hv, if_pos hminpos, crosstab_counts_total, hchi]
      refine ⟨rfl, Real.sqrt_nonneg _, ?_⟩
      rw [Real.sqrt_le_one]
      have hle : (chi2_contingency (crosstabCore (df.getCol (resolveVar cfg var1))
              (df.getCol (resolveVar cfg var2))).counts
            (crosstabCore (df.getCol (resolveVar cfg var1))
              (df.getCol (resolveVar cfg var2))).rowLabels.length
            (crosstabCore (df.getCol (resolveVar cfg var1))
              (df.getCol (resolveVar cfg var2))).colLabels.length true).chi2
          / (((pairedObs (df.getCol (resolveVar cfg var1))
                (df.getCol (resolveVar cfg var2))).length : ℚ)
            * ((min ((crosstabCore (df.getCol (resolveVar cfg var1))
                  (df.getCol (resolveVar cfg var2))).rowLabels.length - 1)
                ((crosstabCore (df.getCol (resolveVar cfg var1))
                  (df.getCol (resolveVar cfg var2))).colLabels.length - 1) : ℕ) : ℚ))
          ≤ 1 := by
        rw [div_le_one (mul_pos hNpos hmq)]
        exact crosstab_chi2_le _ _ hr2 hc2
      exact_mod_cast hle

/-- Witness for `chi_square_test_spec`: the 2×2 dataset `dfC1` with both
columns present. -/
theorem chi_square_test_spec_witness :
    (dfC1.hasCol (resolveVar none "A") = true)
    ∧ (dfC1.hasCol (resolveVar none "B") = true)
    ∧ (((chi_square_test dfC1 "A" "B" none
          = Except.error (StatsError.tableTooSmall "A" "B"))
        ↔ ((crosstabCore (dfC1.getCol (resolveVar none "A"))
              (dfC1.getCol (resolveVar none "B"))).rowLabels.length < 2
            ∨ (crosstabCore (dfC1.getCol (resolveVar none "A"))
                (dfC1.getCol (resolveVar none "B"))).colLabels.length < 2))
      ∧ (∀ res : ChiSquareResult, chi_square_test dfC1 "A" "B" none = Except.ok res →
          res.cramersVSq = res.chi2
              / (((pairedObs (dfC1.getCol (resolveVar none "A"))
                    (dfC1.getCol (resolveVar none "B"))).length : ℚ)
                * ((min ((crosstabCore (dfC1.getCol (resolveVar none "A"))
                      (dfC1.getCol (resolveVar none "B"))).rowLabels.length - 1)
                    ((crosstabCore (dfC1.getCol (resolveVar none "A"))
                      (dfC1.getCol (resolveVar none "B"))).colLabels.length - 1) : ℕ) : ℚ))
            ∧ 0 ≤ Real.sqrt (res.cramersVSq : ℝ)
            ∧ Real.sqrt (res.cramersVSq : ℝ) ≤ 1)) :=
  ⟨rfl, rfl, chi_square_test_spec dfC1 "A" "B" none rfl rfl⟩

end SurveyAnalysis
